import Mathlib

set_option maxRecDepth 4000

/-!
Verification development for the CodeContext memory and team-knowledge engine.

The definitions below are shallow embeddings of the TypeScript/JavaScript
sources:
* namespace `Perm` embeds `MemoryPermissionsEngine` (memoryPermissions.js):
  permission checking, explicit rules, access requests and audit logging.
  The collaborating `TeamMemoryEngine` calls (`getTeamMembers`,
  `getTeamMemories`) are asynchronous database reads that may fail; they are
  modelled as an oracle `PermEnv` mapping the index of the call to either a
  result list or an error message, with per-engine call counters kept in
  `PermState`.  A JavaScript rejection is modelled as `Except.error`.
* namespace `TeamStore` embeds `TeamMemoryEngine` (memory voting and the
  success-score recomputation).
* namespace `MemE` embeds `MemoryEngine` (the per-project SQLite store).
  SQLite's `CURRENT_TIMESTAMP` defaults are modelled by a monotone `clock`
  consumed one tick per statement; `uuidv4()` by a counter; `ORDER BY` by a
  stable insertion sort (ties keep row order); `LIKE '%t%'` by ASCII
  case-insensitive substring containment; a `DELETE .. WHERE col = ?`
  against a table whose schema lacks `col` is an SQL error, modelled as
  `Except.error`, with the column lists transcribed from the
  `CREATE TABLE` statements of the source.
-/

namespace ListUtil

/-- Boolean test that `p` occurs as a leading block of `l`. -/
def listStarts [BEq α] : List α → List α → Bool
  | [], _ => true
  | _ :: _, [] => false
  | a :: as, b :: bs => a == b && listStarts as bs

/-- Boolean test that `p` occurs as a contiguous block somewhere in `l`. -/
def listHasSub [BEq α] (p : List α) : List α → Bool
  | [] => p.isEmpty
  | a :: tl => listStarts p (a :: tl) || listHasSub p tl

/-- Stable descending insertion: an element moves past strictly smaller keys
only, so rows with equal keys keep their original (rowid) order, matching the
observed SQLite behaviour of `ORDER BY key DESC`. -/
def insDesc (key : α → Nat) (a : α) : List α → List α
  | [] => [a]
  | b :: bs => if key b ≤ key a then a :: b :: bs else b :: insDesc key a bs

/-- Stable sort with descending keys (model of `ORDER BY key DESC`). -/
def sortDescBy (key : α → Nat) : List α → List α
  | [] => []
  | a :: as => insDesc key a (sortDescBy key as)

/-- Stable ascending insertion (model of `ORDER BY key`). -/
def insAsc (key : α → Nat) (a : α) : List α → List α
  | [] => [a]
  | b :: bs => if key a ≤ key b then a :: b :: bs else b :: insAsc key a bs

/-- Stable sort with ascending keys (model of `ORDER BY key`). -/
def sortAscBy (key : α → Nat) : List α → List α
  | [] => []
  | a :: as => insAsc key a (sortAscBy key as)

/-- ASCII lower-casing of a string, character by character. -/
def lowerAscii (s : String) : String :=
  String.mk (s.toList.map Char.toLower)

/-- Model of SQLite `LIKE '%pat%'`: ASCII case-insensitive substring test. -/
def likeContains (s pat : String) : Bool :=
  listHasSub (lowerAscii pat).toList (lowerAscii s).toList

end ListUtil

namespace Perm

open ListUtil

/-- Row of `team_members` as surfaced by `TeamMemoryEngine.getTeamMembers`. -/
structure TeamMember where
  id : String
  name : String
  role : String
deriving DecidableEq

/-- Row of `team_memories` as surfaced by `TeamMemoryEngine.getTeamMemories`;
only the fields read by the permissions engine are carried. -/
structure TeamMemory where
  id : String
  createdBy : String
  visibility : String
  ty : String
deriving DecidableEq

/-- The condition variants understood by `evaluateConditions`. -/
inductive Condition where
  | timeWindow (start stop : Int)
  | memoryType (v : String)
  | approvalRequired
deriving DecidableEq

/-- One `(action, granted)` entry of a rule's `permissions` array. -/
structure ActionGrant where
  action : String
  granted : Bool
deriving DecidableEq

/-- A `PermissionRule` as stored in `this.permissionRules`.  The JavaScript
object's absent `conditions` field is the empty list. -/
structure PermissionRule where
  id : String
  resourceType : String
  resourceId : Option String
  subjectType : String
  subjectId : String
  permissions : List ActionGrant
  conditions : List Condition
  isActive : Bool
  createdBy : String
deriving DecidableEq

/-- An `AccessRequest` as stored in `this.accessRequests`. -/
structure AccessRequest where
  id : String
  requesterId : String
  resourceType : String
  resourceId : String
  requestedPermissions : List ActionGrant
  status : String
  approvedBy : Option String
  denyReason : Option String
deriving DecidableEq

/-- An `AuditLogEntry` as appended by `logAudit`. -/
structure AuditLogEntry where
  userId : String
  userName : String
  action : String
  resourceType : String
  resourceId : String
  success : Bool
  errorMessage : Option String
deriving DecidableEq

/-- Oracle for the collaborating `TeamMemoryEngine`: the n-th call of
`getTeamMembers` (resp. `getTeamMemories`) yields `membersAt n`
(resp. `memoriesAt n`), either a row list or a rejected promise. `now`
models `new Date()` for time-window conditions. -/
structure PermEnv where
  membersAt : Nat → Except String (List TeamMember)
  memoriesAt : Nat → Except String (List TeamMemory)
  now : Int

/-- Mutable state of a `MemoryPermissionsEngine` instance, plus the call
counters feeding the oracle and the uuid counter. -/
structure PermState where
  permissionRules : List PermissionRule
  accessRequests : List AccessRequest
  auditLogs : List AuditLogEntry
  membersCalls : Nat
  memoriesCalls : Nat
  uuidCount : Nat
deriving DecidableEq

/-- One call of `teamMemoryEngine.getTeamMembers()`. -/
def getTeamMembers (env : PermEnv) (s : PermState) :
    PermState × Except String (List TeamMember) :=
  ({ s with membersCalls := s.membersCalls + 1 }, env.membersAt s.membersCalls)

/-- One call of `teamMemoryEngine.getTeamMemories()`. -/
def getTeamMemories (env : PermEnv) (s : PermState) :
    PermState × Except String (List TeamMemory) :=
  ({ s with memoriesCalls := s.memoriesCalls + 1 }, env.memoriesAt s.memoriesCalls)

/-- The capping block of `logAudit`
(keep only the most recent 10,000 entries, dropping the oldest). -/
def capLogs (logs : List AuditLogEntry) : List AuditLogEntry :=
  if logs.length > 10000 then logs.drop (logs.length - 10000) else logs

/-- Embedding of `logAudit`: looks the actor up (a further collaborator call
that can itself reject), appends the entry, and keeps only the last
10,000 entries. -/
def logAudit (env : PermEnv) (s : PermState)
    (userId action resourceType resourceId : String) (success : Bool)
    (errorMessage : Option String) : PermState × Except String Unit :=
  let (s1, r) := getTeamMembers env s
  match r with
  | .error e => (s1, .error e)
  | .ok members =>
    let user := members.find? (fun m => m.id == userId)
    let entry : AuditLogEntry :=
      { userId := userId
        userName := (user.map (fun u => u.name)).getD "Unknown"
        action := action
        resourceType := resourceType
        resourceId := resourceId
        success := success
        errorMessage := errorMessage }
    ({ s1 with auditLogs := capLogs (s1.auditLogs ++ [entry]) }, .ok ())

/-- Embedding of `checkApprovalStatus`. -/
def checkApprovalStatus (s : PermState) (userId resourceType : String)
    (resourceId : Option String) : Bool :=
  s.accessRequests.any (fun req =>
    req.requesterId == userId &&
    req.resourceType == resourceType &&
    some req.resourceId == resourceId &&
    req.status == "approved")

/-- Embedding of `isInTimeWindow`. -/
def isInTimeWindow (now start stop : Int) : Bool :=
  start ≤ now && now ≤ stop

/-- Embedding of `evaluateConditions`; the `memory_type` branch performs a
collaborator call that may reject. -/
def evaluateConditions (env : PermEnv) (s : PermState) (conds : List Condition)
    (userId resourceType : String) (resourceId : Option String) :
    PermState × Except String Bool :=
  match conds with
  | [] => (s, .ok true)
  | .timeWindow a b :: rest =>
    if isInTimeWindow env.now a b then
      evaluateConditions env s rest userId resourceType resourceId
    else (s, .ok false)
  | .memoryType v :: rest =>
    if resourceType == "memory" && resourceId.isSome then
      let (s1, r) := getTeamMemories env s
      match r with
      | .error e => (s1, .error e)
      | .ok mems =>
        match mems.find? (fun m => some m.id == resourceId) with
        | some mem =>
          if mem.ty != v then (s1, .ok false)
          else evaluateConditions env s1 rest userId resourceType resourceId
        | none => evaluateConditions env s1 rest userId resourceType resourceId
    else evaluateConditions env s rest userId resourceType resourceId
  | .approvalRequired :: rest =>
    if checkApprovalStatus s userId resourceType resourceId then
      evaluateConditions env s rest userId resourceType resourceId
    else (s, .ok false)

/-- The `for (const rule of rules)` loop body of `checkExplicitPermissions`. -/
def checkExplicitLoop (env : PermEnv) (s : PermState)
    (rules : List PermissionRule) (userId action resourceType : String)
    (resourceId : Option String) : PermState × Except String (Option Bool) :=
  match rules with
  | [] => (s, .ok none)
  | rule :: rest =>
    match rule.permissions.find? (fun p => p.action == action) with
    | none => checkExplicitLoop env s rest userId action resourceType resourceId
    | some p =>
      if rule.conditions.length > 0 then
        let (s1, r) :=
          evaluateConditions env s rule.conditions userId resourceType resourceId
        match r with
        | .error e => (s1, .error e)
        | .ok true => (s1, .ok (some p.granted))
        | .ok false =>
          checkExplicitLoop env s1 rest userId action resourceType resourceId
      else (s, .ok (some p.granted))

/-- Embedding of `checkExplicitPermissions`: filter the stored rules exactly
as the source does, then scan them in insertion order. -/
def checkExplicitPermissions (env : PermEnv) (s : PermState)
    (userId action resourceType : String) (resourceId : Option String) :
    PermState × Except String (Option Bool) :=
  let rules := s.permissionRules.filter (fun rule =>
    rule.isActive && rule.resourceType == resourceType &&
    (rule.subjectType == "user" && rule.subjectId == userId) &&
    (resourceId.isNone || rule.resourceId == resourceId))
  checkExplicitLoop env s rules userId action resourceType resourceId

/-- Embedding of the `defaultPermissions` matrix read through
`checkRolePermissions` (`this.defaultPermissions[role]?.[action] || false`):
exactly the `true`-valued keys of each role's record answer `true`. -/
def checkRolePermissions (role action : String) : Bool :=
  if role == "admin" then
    ["read", "write", "delete", "share", "vote", "comment", "moderate",
      "admin"].contains action
  else if role == "developer" then
    ["read", "write", "share", "vote", "comment"].contains action
  else if role == "observer" then
    ["read", "vote", "comment"].contains action
  else false

/-- Embedding of `checkMemoryPermissions`. -/
def checkMemoryPermissions (env : PermEnv) (s : PermState)
    (userId action memoryId : String) : PermState × Except String Bool :=
  let (s1, r) := getTeamMemories env s
  match r with
  | .error e => (s1, .error e)
  | .ok mems =>
    match mems.find? (fun m => m.id == memoryId) with
    | none => (s1, .ok false)
    | some memory =>
      if memory.createdBy == userId then (s1, .ok true)
      else if memory.visibility == "private" then (s1, .ok false)
      else if memory.visibility == "team_only" then (s1, .ok true)
      else if memory.visibility == "public" then (s1, .ok true)
      else (s1, .ok false)

/-- The `logAudit`-then-return tail shared by the decided branches of
`checkPermission` (the audit call can itself reject). -/
def logAndReturn (env : PermEnv) (s : PermState)
    (userId resourceType ridStr : String) (value : Bool) :
    PermState × Except String Bool :=
  let (s3, rl) := logAudit env s userId "permission_check" resourceType
    ridStr value none
  match rl with
  | .error e => (s3, .error e)
  | .ok _ => (s3, .ok value)

/-- The role-and-resource tail of `checkPermission`, reached when no explicit
rule decided: for a memory resource the answer is
`rolePermission && memoryPermission`, otherwise the role default alone. -/
def checkPermissionResource (env : PermEnv) (s : PermState)
    (user : TeamMember) (userId action resourceType : String)
    (resourceId : Option String) : PermState × Except String Bool :=
  let rolePermission := checkRolePermissions user.role action
  match resourceId with
  | some rid =>
    if resourceType == "memory" then
      let (s3, rmem) := checkMemoryPermissions env s userId action rid
      match rmem with
      | .error e => (s3, .error e)
      | .ok memoryPermission =>
        logAndReturn env s3 userId resourceType rid
          (rolePermission && memoryPermission)
    else logAndReturn env s userId resourceType rid rolePermission
  | none => logAndReturn env s userId resourceType "" rolePermission

/-- The `try` body of `checkPermission`; an `Except.error` result is the
exception the surrounding `catch` receives, carrying the state as mutated so
far. -/
def checkPermissionTry (env : PermEnv) (s : PermState)
    (userId action resourceType : String) (resourceId : Option String) :
    PermState × Except String Bool :=
  let (s1, rm) := getTeamMembers env s
  match rm with
  | .error e => (s1, .error e)
  | .ok members =>
    match members.find? (fun m => m.id == userId) with
    | none =>
      let (s2, rl) := logAudit env s1 userId "permission_check" resourceType
        (resourceId.getD "") false (some "User not found")
      match rl with
      | .error e => (s2, .error e)
      | .ok _ => (s2, .ok false)
    | some user =>
      let (s2, re) :=
        checkExplicitPermissions env s1 userId action resourceType resourceId
      match re with
      | .error e => (s2, .error e)
      | .ok (some explicitPermission) =>
        logAndReturn env s2 userId resourceType (resourceId.getD "")
          explicitPermission
      | .ok none =>
        checkPermissionResource env s2 user userId action resourceType
          resourceId

/-- Embedding of `checkPermission`: the `try` body plus the `catch` handler,
which logs the failure (a call that can itself reject, in which case the
rejection escapes `checkPermission`) and returns `false`. -/
def checkPermission (env : PermEnv) (s : PermState)
    (userId action resourceType : String) (resourceId : Option String) :
    PermState × Except String Bool :=
  let (s1, r) := checkPermissionTry env s userId action resourceType resourceId
  match r with
  | .ok b => (s1, .ok b)
  | .error e =>
    let (s2, rl) := logAudit env s1 userId "permission_check" resourceType
      (resourceId.getD "") false (some e)
    match rl with
    | .error e2 => (s2, .error e2)
    | .ok _ => (s2, .ok false)

/-- Embedding of `createPermissionRule` (uuid from the counter, rule appended
in map-insertion order, then an audit write that may reject). -/
def createPermissionRule (env : PermEnv) (s : PermState)
    (resourceType : String) (resourceId : Option String)
    (subjectId : String) (permissions : List ActionGrant)
    (conditions : List Condition) (isActive : Bool) (createdBy : String) :
    PermState × Except String String :=
  let ruleId := "uuid-" ++ toString s.uuidCount
  let rule : PermissionRule :=
    { id := ruleId, resourceType := resourceType, resourceId := resourceId
      subjectType := "user", subjectId := subjectId
      permissions := permissions, conditions := conditions
      isActive := isActive, createdBy := createdBy }
  let s1 := { s with permissionRules := s.permissionRules ++ [rule]
                     uuidCount := s.uuidCount + 1 }
  let (s2, rl) := logAudit env s1 createdBy "create_permission_rule"
    "permission_rule" ruleId true none
  match rl with
  | .error e => (s2, .error e)
  | .ok _ => (s2, .ok ruleId)

/-- Embedding of `createAccessRequest`: fresh id, status `pending`. -/
def createAccessRequest (env : PermEnv) (s : PermState)
    (requesterId resourceType resourceId : String)
    (requestedPermissions : List ActionGrant) :
    PermState × Except String String :=
  let requestId := "uuid-" ++ toString s.uuidCount
  let req : AccessRequest :=
    { id := requestId, requesterId := requesterId
      resourceType := resourceType, resourceId := resourceId
      requestedPermissions := requestedPermissions
      status := "pending", approvedBy := none, denyReason := none }
  let s1 := { s with accessRequests := s.accessRequests ++ [req]
                     uuidCount := s.uuidCount + 1 }
  let (s2, rl) := logAudit env s1 requesterId "create_access_request"
    resourceType resourceId true none
  match rl with
  | .error e => (s2, .error e)
  | .ok _ => (s2, .ok requestId)

/-- Embedding of `approveAccessRequest`: only a `pending` request transitions;
on success an active rule carrying the requested permissions is created. -/
def approveAccessRequest (env : PermEnv) (s : PermState)
    (requestId approverId : String) : PermState × Except String Bool :=
  match s.accessRequests.find? (fun r => r.id == requestId) with
  | none => (s, .ok false)
  | some req =>
    if req.status != "pending" then (s, .ok false)
    else
      let s1 := { s with accessRequests := s.accessRequests.map (fun r =>
        if r.id == requestId then
          { r with status := "approved", approvedBy := some approverId }
        else r) }
      let (s2, rl) := logAudit env s1 approverId "approve_access_request"
        req.resourceType req.resourceId true none
      match rl with
      | .error e => (s2, .error e)
      | .ok _ =>
        let (s3, rc) := createPermissionRule env s2 req.resourceType
          (some req.resourceId) req.requesterId req.requestedPermissions
          [] true approverId
        match rc with
        | .error e => (s3, .error e)
        | .ok _ => (s3, .ok true)

/-- Embedding of `denyAccessRequest`: only a `pending` request transitions;
no rule is created. -/
def denyAccessRequest (env : PermEnv) (s : PermState)
    (requestId denierId reason : String) : PermState × Except String Bool :=
  match s.accessRequests.find? (fun r => r.id == requestId) with
  | none => (s, .ok false)
  | some req =>
    if req.status != "pending" then (s, .ok false)
    else
      let s1 := { s with accessRequests := s.accessRequests.map (fun r =>
        if r.id == requestId then
          { r with status := "denied", denyReason := some reason }
        else r) }
      let (s2, rl) := logAudit env s1 denierId "deny_access_request"
        req.resourceType req.resourceId true none
      match rl with
      | .error e => (s2, .error e)
      | .ok _ => (s2, .ok true)

end Perm

namespace TeamStore

open ListUtil

/-- Row of the `team_memories` table; `success_score REAL DEFAULT 0.0` and
`usage_count INTEGER DEFAULT 0` come from the `CREATE TABLE` defaults since
`createTeamMemory` does not supply them. -/
structure TeamMemoryRow where
  id : String
  teamId : String
  ty : String
  title : String
  content : String
  createdBy : String
  createdAt : Nat
  visibility : String
  usageCount : Nat
  successScore : Rat
deriving DecidableEq

/-- Row of the `team_memory_votes` table. -/
structure VoteRow where
  id : String
  memoryId : String
  memberId : String
  vote : String
deriving DecidableEq

/-- State of the team store relevant to voting and success scores. -/
structure TeamDB where
  teamId : String
  teamMemories : List TeamMemoryRow
  votes : List VoteRow
  clock : Nat
  uuidCount : Nat
deriving DecidableEq

/-- Embedding of `createTeamMemory`: the insert names neither `usage_count`
nor `success_score`, so both take their schema defaults (`0` and `0.0`). -/
def createTeamMemory (db : TeamDB) (ty title content createdBy visibility : String) :
    TeamDB × String :=
  let memoryId := "uuid-" ++ toString db.uuidCount
  ({ db with
      teamMemories := db.teamMemories ++
        [{ id := memoryId, teamId := db.teamId, ty := ty, title := title
           content := content, createdBy := createdBy, createdAt := db.clock
           visibility := visibility, usageCount := 0, successScore := 0 }]
      clock := db.clock + 1
      uuidCount := db.uuidCount + 1 }, memoryId)

/-- Embedding of `updateMemorySuccessScore`: count the memory's upvotes and
downvotes and store `upvotes/total`, or `0.5` when no votes exist. -/
def updateMemorySuccessScore (db : TeamDB) (memoryId : String) : TeamDB :=
  let votes := db.votes.filter (fun v => v.memoryId == memoryId)
  let upvotes := (votes.filter (fun v => v.vote == "upvote")).length
  let downvotes := (votes.filter (fun v => v.vote == "downvote")).length
  let totalVotes := upvotes + downvotes
  let successScore : Rat :=
    if totalVotes > 0 then (upvotes : Rat) / (totalVotes : Rat) else 1/2
  { db with teamMemories := db.teamMemories.map (fun m =>
      if m.id == memoryId then { m with successScore := successScore } else m) }

/-- The `INSERT OR REPLACE` statement of `voteOnMemory` on the
`UNIQUE(memory_id, member_id)` key: the conflicting row is deleted and the
fresh row appended. -/
def insertVote (db : TeamDB) (memoryId memberId vote : String) : TeamDB :=
  { db with
    votes := db.votes.filter (fun v =>
        !(v.memoryId == memoryId && v.memberId == memberId)) ++
      [{ id := "uuid-" ++ toString db.uuidCount, memoryId := memoryId
         memberId := memberId, vote := vote }]
    uuidCount := db.uuidCount + 1
    clock := db.clock + 1 }

/-- Embedding of `voteOnMemory`: upsert the vote, then recompute the
memory's success score. -/
def voteOnMemory (db : TeamDB) (memoryId memberId vote : String) : TeamDB :=
  updateMemorySuccessScore (insertVote db memoryId memberId vote) memoryId

/-- Embedding of `getTeamMemories` with no filter: team-scoped rows, newest
first (`ORDER BY created_at DESC`); only the row fields are modelled, the
per-row vote and comment sub-queries being irrelevant to the claims. -/
def getTeamMemories (db : TeamDB) : List TeamMemoryRow :=
  sortDescBy (fun m => m.createdAt)
    (db.teamMemories.filter (fun m => m.teamId == db.teamId))

/-- The votes recorded for one memory
(`SELECT vote FROM team_memory_votes WHERE memory_id = ?`). -/
def memoryVotes (db : TeamDB) (memoryId : String) : List VoteRow :=
  db.votes.filter (fun v => v.memoryId == memoryId)

/-- Number of recorded upvotes of a memory. -/
def upvoteCount (db : TeamDB) (memoryId : String) : Nat :=
  ((memoryVotes db memoryId).filter (fun v => v.vote == "upvote")).length

/-- Number of recorded downvotes of a memory. -/
def downvoteCount (db : TeamDB) (memoryId : String) : Nat :=
  ((memoryVotes db memoryId).filter (fun v => v.vote == "downvote")).length

end TeamStore

namespace MemE

open ListUtil

/-- A caller-supplied `Message`; `metadata` is carried as its serialized
blob, `JSON.stringify` / `JSON.parse` being modelled as the identity on it. -/
structure Message where
  id : String
  role : String
  content : String
  timestamp : Nat
  metadata : String
deriving DecidableEq

/-- Row of the `projects` table. -/
structure ProjectRow where
  id : String
  name : String
  rootPath : String
  createdAt : Nat
  lastActive : Nat
deriving DecidableEq

/-- Row of the `conversations` table. -/
structure ConvRow where
  id : String
  projectId : String
  aiAssistant : String
  timestamp : Nat
  context : String
deriving DecidableEq

/-- Row of the `messages` table — note the schema has no `project_id`
column; a message is tied to its project only through its conversation. -/
structure MsgRow where
  id : String
  conversationId : String
  role : String
  content : String
  timestamp : Nat
  metadata : String
deriving DecidableEq

/-- Row of the `architectural_decisions` table; the three JSON-array columns
are modelled as the lists they serialize. -/
structure DecisionRow where
  id : String
  projectId : String
  decision : String
  rationale : String
  alternatives : List String
  impact : List String
  filesAffected : List String
  timestamp : Nat
deriving DecidableEq

/-- Row of the `file_changes` table. -/
structure FileChangeRow where
  id : String
  projectId : String
  filePath : String
  changeType : String
  timestamp : Nat
  conversationId : Option String
deriving DecidableEq

/-- Row of the `code_patterns` table. -/
structure PatternRow where
  id : String
  projectId : String
  pattern : String
  frequency : Nat
  context : String
deriving DecidableEq

/-- Row of the `user_preferences` table. -/
structure PrefRow where
  id : String
  projectId : String
  key : String
  value : String
deriving DecidableEq

/-- The per-project SQLite database plus the deterministic stand-ins for
`CURRENT_TIMESTAMP` (`clock`, one tick per statement) and `uuidv4()`
(`uuidCount`).  `projectId` is the path-derived id `generateProjectId`
returns for this engine instance. -/
structure DB where
  projectId : String
  projects : List ProjectRow
  conversations : List ConvRow
  messages : List MsgRow
  decisions : List DecisionRow
  fileChanges : List FileChangeRow
  codePatterns : List PatternRow
  userPreferences : List PrefRow
deriving DecidableEq

/-- Clock and uuid counter threaded alongside the table rows. -/
structure DBState where
  db : DB
  clock : Nat
  uuidCount : Nat
deriving DecidableEq

/-- The column lists of the `CREATE TABLE` statements in `createTables`. -/
def tableColumns : String → List String
  | "projects" => ["id", "name", "root_path", "created_at", "last_active",
      "metadata"]
  | "conversations" => ["id", "project_id", "ai_assistant", "timestamp",
      "context", "summary"]
  | "messages" => ["id", "conversation_id", "role", "content", "timestamp",
      "metadata"]
  | "architectural_decisions" => ["id", "project_id", "decision", "rationale",
      "alternatives", "impact", "files_affected", "timestamp"]
  | "file_changes" => ["id", "project_id", "file_path", "change_type",
      "timestamp", "conversation_id"]
  | "code_patterns" => ["id", "project_id", "pattern", "frequency", "context"]
  | "user_preferences" => ["id", "project_id", "key", "value"]
  | _ => []

/-- State after `initialize()` on a fresh path: all tables created and the
single project row upserted at time `0`. -/
def initDB (pid name rootPath : String) : DBState :=
  { db := { projectId := pid
            projects := [{ id := pid, name := name, rootPath := rootPath
                           createdAt := 0, lastActive := 0 }]
            conversations := [], messages := [], decisions := []
            fileChanges := [], codePatterns := [], userPreferences := [] }
    clock := 1
    uuidCount := 0 }

/-- Embedding of `updateProjectActivity`
(`UPDATE projects SET last_active = CURRENT_TIMESTAMP WHERE id = ?`). -/
def updateProjectActivity (st : DBState) : DBState :=
  { st with
      db := { st.db with projects := st.db.projects.map (fun p =>
        if p.id == st.db.projectId then { p with lastActive := st.clock }
        else p) }
      clock := st.clock + 1 }

/-- The message-insertion loop of `recordConversation`:
`INSERT INTO messages (id, conversation_id, role, content, metadata)` with
`message.id || uuidv4()`; the `timestamp` column takes its
`CURRENT_TIMESTAMP` default. -/
def insertMessages (st : DBState) (conversationId : String) :
    List Message → DBState
  | [] => st
  | m :: rest =>
    let mid := if m.id == "" then "uuid-" ++ toString st.uuidCount else m.id
    let st1 : DBState :=
      { st with
          db := { st.db with messages := st.db.messages ++
            [{ id := mid, conversationId := conversationId, role := m.role
               content := m.content, timestamp := st.clock
               metadata := m.metadata }] }
          clock := st.clock + 1
          uuidCount := if m.id == "" then st.uuidCount + 1 else st.uuidCount }
    insertMessages st1 conversationId rest

/-- Embedding of `recordConversation`: insert the conversation, then each
message in order, then bump the project's `last_active`. -/
def recordConversation (st : DBState) (aiAssistant : String)
    (messages : List Message) (context : String) : DBState × String :=
  let conversationId := "uuid-" ++ toString st.uuidCount
  let st1 : DBState :=
    { st with
        db := { st.db with conversations := st.db.conversations ++
          [{ id := conversationId, projectId := st.db.projectId
             aiAssistant := aiAssistant, timestamp := st.clock
             context := context }] }
        clock := st.clock + 1
        uuidCount := st.uuidCount + 1 }
  let st2 := insertMessages st1 conversationId messages
  (updateProjectActivity st2, conversationId)

/-- Caller-supplied fields of an `ArchitecturalDecision`
(`Omit<ArchitecturalDecision, 'id' | 'timestamp'>`). -/
structure DecisionInput where
  decision : String
  rationale : String
  alternatives : List String
  impact : List String
  filesAffected : List String
deriving DecidableEq

/-- Embedding of `recordArchitecturalDecision`: one insert, then
`updateProjectActivity`. -/
def recordArchitecturalDecision (st : DBState) (d : DecisionInput) : DBState :=
  let st1 : DBState :=
    { st with
        db := { st.db with decisions := st.db.decisions ++
          [{ id := "uuid-" ++ toString st.uuidCount
             projectId := st.db.projectId, decision := d.decision
             rationale := d.rationale, alternatives := d.alternatives
             impact := d.impact, filesAffected := d.filesAffected
             timestamp := st.clock }] }
        clock := st.clock + 1
        uuidCount := st.uuidCount + 1 }
  updateProjectActivity st1

/-- Embedding of `trackFileChange`: a single insert — the source performs no
`updateProjectActivity` call here. -/
def trackFileChange (st : DBState) (filePath changeType : String)
    (conversationId : Option String) : DBState :=
  { st with
      db := { st.db with fileChanges := st.db.fileChanges ++
        [{ id := "uuid-" ++ toString st.uuidCount
           projectId := st.db.projectId, filePath := filePath
           changeType := changeType, timestamp := st.clock
           conversationId := conversationId }] }
      clock := st.clock + 1
      uuidCount := st.uuidCount + 1 }

/-- A conversation as returned by `getProjectMemory`: messages read back in
`ORDER BY timestamp` with the stored (insert-time) timestamps. -/
structure ConversationView where
  id : String
  timestamp : Nat
  aiAssistant : String
  context : String
  messages : List Message
deriving DecidableEq

/-- The materialized view returned by `getProjectMemory`. -/
structure ProjectView where
  id : String
  name : String
  rootPath : String
  createdAt : Nat
  lastActive : Nat
  conversations : List ConversationView
  decisions : List DecisionRow
  fileHistory : List FileChangeRow
deriving DecidableEq

/-- Embedding of `getProjectMemory`; `none` models the crash on a missing
project row.  Conversations come newest first, messages of each conversation
in `ORDER BY timestamp`, file history is the most recent 100 records. -/
def getProjectMemory (st : DBState) : Option ProjectView :=
  match st.db.projects.find? (fun p => p.id == st.db.projectId) with
  | none => none
  | some project =>
    some
      { id := project.id, name := project.name, rootPath := project.rootPath
        createdAt := project.createdAt, lastActive := project.lastActive
        conversations :=
          (sortDescBy (fun c => c.timestamp)
            (st.db.conversations.filter
              (fun c => c.projectId == st.db.projectId))).map (fun c =>
            { id := c.id, timestamp := c.timestamp
              aiAssistant := c.aiAssistant, context := c.context
              messages :=
                (sortAscBy (fun m => m.timestamp)
                  (st.db.messages.filter
                    (fun m => m.conversationId == c.id))).map (fun m =>
                  { id := m.id, role := m.role, content := m.content
                    timestamp := m.timestamp, metadata := m.metadata }) })
        decisions := sortDescBy (fun d => d.timestamp)
          (st.db.decisions.filter (fun d => d.projectId == st.db.projectId))
        fileHistory := (sortDescBy (fun f => f.timestamp)
          (st.db.fileChanges.filter
            (fun f => f.projectId == st.db.projectId))).take 100 }

/-- One `DELETE FROM t WHERE project_id = ?` statement of `clearAllMemory`:
an SQL error when the table's schema has no `project_id` column. -/
def clearTable (st : DBState) (t : String) : Except String DBState :=
  if ((tableColumns t).contains "project_id") = false then
    .error "no such column: project_id"
  else
    .ok (if t == "conversations" then
        { st with db := { st.db with conversations := st.db.conversations.filter (fun r => !(r.projectId == st.db.projectId)) } }
      else if t == "architectural_decisions" then
        { st with db := { st.db with decisions := st.db.decisions.filter (fun r => !(r.projectId == st.db.projectId)) } }
      else if t == "file_changes" then
        { st with db := { st.db with fileChanges := st.db.fileChanges.filter (fun r => !(r.projectId == st.db.projectId)) } }
      else if t == "code_patterns" then
        { st with db := { st.db with codePatterns := st.db.codePatterns.filter (fun r => !(r.projectId == st.db.projectId)) } }
      else if t == "user_preferences" then
        { st with db := { st.db with userPreferences := st.db.userPreferences.filter (fun r => !(r.projectId == st.db.projectId)) } }
      else st)

/-- The sequential statement loop of `clearAllMemory`; the first failing
statement aborts the remainder. -/
def clearTables (st : DBState) : List String → Except String DBState
  | [] => .ok st
  | t :: rest =>
    match clearTable st t with
    | .error e => .error e
    | .ok st1 => clearTables st1 rest

/-- Embedding of `clearAllMemory` with its table list in source order. -/
def clearAllMemory (st : DBState) : Except String DBState :=
  clearTables st ["messages", "conversations", "architectural_decisions",
    "file_changes", "code_patterns", "user_preferences"]

/-- The stop-word list of `extractSearchTerms`. -/
def stopwords : List String :=
  ["the", "and", "for", "are", "you", "can", "how", "what", "why", "when",
    "where"]

/-- Embedding of `extractSearchTerms`: lower-case, punctuation to spaces,
split, keep tokens longer than two characters that are not stop words,
first occurrence of each kept token. -/
def extractSearchTerms (message : String) : List String :=
  let cleaned := String.mk (message.toList.map (fun c =>
    if c.isAlphanum || c == '_' then c.toLower else ' '))
  ((cleaned.splitOn " ").filter (fun t =>
    decide (t.length > 2) && !stopwords.contains t)).eraseDups

/-- A memory fragment as produced by `recall`, carrying the fields its
dedup key reads. -/
structure Fragment where
  ty : String
  content : String
deriving DecidableEq

/-- The dedup key of `deduplicateMemories`:
`type` and the first 50 characters of `content`. -/
def fragKey (f : Fragment) : String × String :=
  (f.ty, String.mk (f.content.toList.take 50))

/-- The `seen`-set filter loop of `deduplicateMemories`. -/
def dedupLoop : List Fragment → List (String × String) → List Fragment
  | [], _ => []
  | f :: rest, seen =>
    if seen.contains (fragKey f) then dedupLoop rest seen
    else f :: dedupLoop rest (fragKey f :: seen)

/-- Embedding of `deduplicateMemories`. -/
def deduplicateMemories (memories : List Fragment) : List Fragment :=
  dedupLoop memories []

/-- The join
`conversations c JOIN messages m ON c.id = m.conversation_id` restricted to
the project, in (conversation, message) row order. -/
def joinConvMsgs (db : DB) : List (ConvRow × MsgRow) :=
  (db.conversations.filter (fun c => c.projectId == db.projectId)).flatMap
    (fun c => (db.messages.filter (fun m => m.conversationId == c.id)).map
      (fun m => (c, m)))

/-- The prompt-independent conversation candidates of `recall`: the join
ordered by conversation timestamp, newest first, limited to 20 rows, each
rendered as `role: content`. -/
def recentConvFrags (db : DB) : List Fragment :=
  ((sortDescBy (fun cm => cm.1.timestamp) (joinConvMsgs db)).take 20).map
    (fun cm => { ty := "conversation", content := cm.2.role ++ ": " ++ cm.2.content })

/-- The per-term architectural-decision candidates of `recall`
(`LIKE` on decision or rationale, newest first, top 5). -/
def decFragsForTerm (db : DB) (term : String) : List Fragment :=
  ((sortDescBy (fun d => d.timestamp)
    (db.decisions.filter (fun d =>
      d.projectId == db.projectId &&
      (likeContains d.decision term || likeContains d.rationale term)))).take
        5).map (fun d => { ty := "decision", content := d.decision })

/-- The per-term code-pattern candidates of `recall`
(`LIKE` on pattern or context, highest frequency first, top 5). -/
def patFragsForTerm (db : DB) (term : String) : List Fragment :=
  ((sortDescBy (fun p => p.frequency)
    (db.codePatterns.filter (fun p =>
      p.projectId == db.projectId &&
      (likeContains p.pattern term || likeContains p.context term)))).take
        5).map (fun p => { ty := "pattern", content := p.pattern })

/-- Embedding of `recall` (named `recallOp` here because `recall` is a
reserved command name): recent conversation turns, then decision and
pattern matches per extracted term, deduplicated and truncated to 15. -/
def recallOp (db : DB) (message : String) : List Fragment :=
  let terms := extractSearchTerms message
  (deduplicateMemories
    (recentConvFrags db ++
      terms.flatMap (decFragsForTerm db) ++
      terms.flatMap (patFragsForTerm db))).take 15

/-- Specification of the rows `insertMessages` produces: timestamps
`t, t+1, …` and fresh uuids only where the caller's id is empty. -/
def mkRows (cid : String) (t u : Nat) : List Message → List MsgRow
  | [] => []
  | m :: rest =>
    { id := if m.id == "" then "uuid-" ++ toString u else m.id
      conversationId := cid, role := m.role, content := m.content
      timestamp := t, metadata := m.metadata } ::
    mkRows cid (t + 1) (if m.id == "" then u + 1 else u) rest

/-- Number of messages whose caller-supplied id is empty (each consumes one
generated uuid). -/
def countFresh : List Message → Nat
  | [] => 0
  | m :: rest => (if m.id == "" then 1 else 0) + countFresh rest

/-- A store with twenty one-message conversations, used to exercise
`recall` against a full recent-conversation window. -/
def recallSampleDB : DB :=
  { projectId := "p"
    projects := [{ id := "p", name := "n", rootPath := "r", createdAt := 0, lastActive := 0 }]
    conversations := (List.range 20).map (fun i =>
      { id := "c" ++ toString i, projectId := "p", aiAssistant := "ai"
        timestamp := i + 1, context := "ctx" })
    messages := (List.range 20).map (fun i =>
      { id := "m" ++ toString i, conversationId := "c" ++ toString i
        role := "user", content := "t" ++ toString (i + 1)
        timestamp := i + 1, metadata := "md" })
    decisions := [], fileChanges := [], codePatterns := []
    userPreferences := [] }

end MemE

section PermLemmas

open Perm

/-- Unfolding of a successful `logAudit` call: the entry is appended and the
log capped to its most recent 10,000 entries. -/
theorem logAudit_ok {env : PermEnv} {s : PermState} {ms : List TeamMember}
    (h : env.membersAt s.membersCalls = .ok ms)
    (userId action resourceType resourceId : String) (success : Bool)
    (errorMessage : Option String) :
    logAudit env s userId action resourceType resourceId success errorMessage =
      ({ s with
          membersCalls := s.membersCalls + 1
          auditLogs := capLogs (s.auditLogs ++
            [{ userId := userId
               userName := (((ms.find? (fun m => m.id == userId)).map
                 (fun u => u.name)).getD "Unknown")
               action := action, resourceType := resourceType
               resourceId := resourceId, success := success
               errorMessage := errorMessage }]) }, .ok ()) := by
  simp [logAudit, getTeamMembers, h]

/-- Capping does nothing to a log within the bound. -/
theorem capLogs_small {l : List AuditLogEntry} (hlen : l.length <= 10000) :
    capLogs l = l := by
  unfold capLogs
  rw [if_neg (by omega)]

/-- Capping retains exactly the most recent 10,000 entries. -/
theorem capLogs_eq_drop (l : List AuditLogEntry) :
    capLogs l = l.drop (l.length - 10000) := by
  unfold capLogs
  by_cases hc : l.length > 10000
  · rw [if_pos hc]
  · rw [if_neg hc, (by omega : l.length - 10000 = 0), List.drop_zero]

/-- A capped log never exceeds 10,000 entries when its input exceeds the
bound by at most one append. -/
theorem capLogs_length_le {l : List AuditLogEntry} (h : l.length <= 10001) :
    (capLogs l).length <= 10000 := by
  unfold capLogs
  by_cases hc : l.length > 10000
  · rw [if_pos hc]
    simp only [List.length_drop]
    omega
  · rw [if_neg hc]
    omega

/-- A successful `logAudit` under a small log is a plain append. -/
theorem logAudit_ok_small {env : PermEnv} {s : PermState}
    {ms : List TeamMember} (h : env.membersAt s.membersCalls = .ok ms)
    (hlen : s.auditLogs.length < 10000)
    (userId action resourceType resourceId : String) (success : Bool)
    (errorMessage : Option String) :
    logAudit env s userId action resourceType resourceId success errorMessage =
      ({ s with
          membersCalls := s.membersCalls + 1
          auditLogs := s.auditLogs ++
            [{ userId := userId
               userName := (((ms.find? (fun m => m.id == userId)).map
                 (fun u => u.name)).getD "Unknown")
               action := action, resourceType := resourceType
               resourceId := resourceId, success := success
               errorMessage := errorMessage }] }, .ok ()) := by
  rw [logAudit_ok h, capLogs_small (by simp; omega)]

/-- `checkMemoryPermissions` never touches the state other than bumping the
memories-call counter. -/
theorem checkMemoryPermissions_state (env : PermEnv) (s : PermState)
    (uid act mid : String) :
    (checkMemoryPermissions env s uid act mid).1 =
      { s with memoriesCalls := s.memoriesCalls + 1 } := by
  unfold checkMemoryPermissions getTeamMemories
  cases env.memoriesAt s.memoriesCalls with
  | error e => rfl
  | ok mems =>
    dsimp only
    cases mems.find? (fun m => m.id == mid) with
    | none => rfl
    | some memory =>
      dsimp only
      split_ifs <;> rfl

/-- `evaluateConditions` never appends audit entries. -/
theorem evaluateConditions_auditLogs (env : PermEnv) (conds : List Condition) :
    ∀ (s : PermState) (u rt : String) (rid : Option String),
      (evaluateConditions env s conds u rt rid).1.auditLogs = s.auditLogs := by
  induction conds with
  | nil => intro s u rt rid; rfl
  | cons c rest ih =>
    intro s u rt rid
    cases c with
    | timeWindow a b =>
      unfold evaluateConditions
      split
      · exact ih s u rt rid
      · rfl
    | memoryType v =>
      unfold evaluateConditions getTeamMemories
      split
      · dsimp only
        cases env.memoriesAt s.memoriesCalls with
        | error e => rfl
        | ok mems =>
          dsimp only
          cases mems.find? (fun m => some m.id == rid) with
          | none => exact ih _ u rt rid
          | some mem =>
            dsimp only
            split
            · rfl
            · exact ih _ u rt rid
      · exact ih s u rt rid
    | approvalRequired =>
      unfold evaluateConditions
      split
      · exact ih s u rt rid
      · rfl

/-- The explicit-rule scan never appends audit entries. -/
theorem checkExplicitLoop_auditLogs (env : PermEnv)
    (rules : List PermissionRule) :
    ∀ (s : PermState) (uid act rt : String) (rid : Option String),
      (checkExplicitLoop env s rules uid act rt rid).1.auditLogs =
        s.auditLogs := by
  induction rules with
  | nil => intro s uid act rt rid; rfl
  | cons rule rest ih =>
    intro s uid act rt rid
    unfold checkExplicitLoop
    cases rule.permissions.find? (fun p => p.action == act) with
    | none => exact ih s uid act rt rid
    | some p =>
      dsimp only
      split
      · have hev := evaluateConditions_auditLogs env rule.conditions s uid rt
          rid
        split
        · exact hev
        · exact hev
        · rw [ih _ uid act rt rid, hev]
      · rfl

/-- `checkExplicitPermissions` never appends audit entries. -/
theorem checkExplicitPermissions_auditLogs (env : PermEnv) (s : PermState)
    (uid act rt : String) (rid : Option String) :
    (checkExplicitPermissions env s uid act rt rid).1.auditLogs =
      s.auditLogs := by
  unfold checkExplicitPermissions
  exact checkExplicitLoop_auditLogs env _ s uid act rt rid

end PermLemmas

/-- C1: the claim states that `checkPermission` grants the creator of a
memory every action in the absence of explicit rules.  In the code the
creator only short-circuits the visibility check
(`checkMemoryPermissions` returns `true`), while the overall answer is
`rolePermission && memoryPermission`, so the creator is granted exactly the
actions their role defaults grant. -/
theorem c1_creator_passes_visibility_but_role_bounds :
    (∀ (env : Perm.PermEnv) (s : Perm.PermState) (mems : List Perm.TeamMemory)
      (uid act mid : String) (mem : Perm.TeamMemory),
      env.memoriesAt s.memoriesCalls = .ok mems →
      mems.find? (fun m => m.id == mid) = some mem →
      mem.createdBy = uid →
      (Perm.checkMemoryPermissions env s uid act mid).2 = .ok true) ∧
    (∀ (env : Perm.PermEnv) (s : Perm.PermState) (ms : List Perm.TeamMember)
      (mems : List Perm.TeamMemory) (uid act mid : String)
      (user : Perm.TeamMember) (mem : Perm.TeamMemory),
      env.membersAt = (fun _ => .ok ms) →
      env.memoriesAt = (fun _ => .ok mems) →
      ms.find? (fun m => m.id == uid) = some user →
      s.permissionRules = [] →
      mems.find? (fun m => m.id == mid) = some mem →
      mem.createdBy = uid →
      (Perm.checkPermission env s uid act "memory" (some mid)).2 =
        .ok (Perm.checkRolePermissions user.role act)) := by
  constructor
  · intro env s mems uid act mid mem h1 h2 h3
    simp [Perm.checkMemoryPermissions, Perm.getTeamMemories, h1, h2, h3]
  · intro env s ms mems uid act mid user mem hm hmem hu hrules hfind hcreator
    simp [Perm.checkPermission, Perm.checkPermissionTry, Perm.logAndReturn,
      Perm.checkPermissionResource, Perm.getTeamMembers,
      Perm.getTeamMemories, Perm.checkExplicitPermissions,
      Perm.checkExplicitLoop, Perm.checkMemoryPermissions, Perm.logAudit, Perm.capLogs,
      hm, hmem, hu, hrules, hfind, hcreator]

/-- C1 witness: an admin creator of a private memory, checked for `delete`. -/
theorem c1_witness :
    (Perm.checkPermission
      ⟨fun _ => .ok [⟨"u1", "Ada", "admin"⟩],
       fun _ => .ok [⟨"m1", "u1", "private", "decision"⟩], 0⟩
      ⟨[], [], [], 0, 0, 0⟩ "u1" "delete" "memory" (some "m1")).2 =
      .ok (Perm.checkRolePermissions "admin" "delete") := by
  exact c1_creator_passes_visibility_but_role_bounds.2
    ⟨fun _ => .ok [⟨"u1", "Ada", "admin"⟩],
     fun _ => .ok [⟨"m1", "u1", "private", "decision"⟩], 0⟩
    ⟨[], [], [], 0, 0, 0⟩ [⟨"u1", "Ada", "admin"⟩]
    [⟨"m1", "u1", "private", "decision"⟩] "u1" "delete" "m1"
    ⟨"u1", "Ada", "admin"⟩ ⟨"m1", "u1", "private", "decision"⟩
    rfl rfl rfl rfl rfl rfl

/-- C1 counterexample: an observer who created a `team_only` memory is denied
`write` on it, violating the claim that the creator passes every action. -/
theorem c1_counterexample :
    (Perm.checkPermission
      ⟨fun _ => .ok [⟨"u1", "Olive", "observer"⟩],
       fun _ => .ok [⟨"m1", "u1", "team_only", "decision"⟩], 0⟩
      ⟨[], [], [], 0, 0, 0⟩ "u1" "write" "memory" (some "m1")).2 =
      .ok false := rfl

/-- C2: with no explicit rules, a developer who did not create a `team_only`
memory can `write` but not `delete` it; an observer can `vote` and `comment`
but a `write` attempt returns `false` and appends an audit entry with
`success := false`. -/
theorem c2_role_scenario
    (env : Perm.PermEnv) (s : Perm.PermState) (ms : List Perm.TeamMember)
    (mems : List Perm.TeamMemory) (dId dName oId oName mid creator mty : String)
    (hm : env.membersAt = fun _ => .ok ms)
    (hmem : env.memoriesAt = fun _ => .ok mems)
    (hD : ms.find? (fun m => m.id == dId) = some ⟨dId, dName, "developer"⟩)
    (hO : ms.find? (fun m => m.id == oId) = some ⟨oId, oName, "observer"⟩)
    (hrules : s.permissionRules = [])
    (hM : mems.find? (fun m => m.id == mid) =
      some ⟨mid, creator, "team_only", mty⟩)
    (hcD : (creator == dId) = false)
    (hcO : (creator == oId) = false)
    (hlen : s.auditLogs.length < 10000) :
    (Perm.checkPermission env s dId "write" "memory" (some mid)).2 =
      .ok true ∧
    (Perm.checkPermission env s dId "delete" "memory" (some mid)).2 =
      .ok false ∧
    (Perm.checkPermission env s oId "vote" "memory" (some mid)).2 =
      .ok true ∧
    (Perm.checkPermission env s oId "comment" "memory" (some mid)).2 =
      .ok true ∧
    (Perm.checkPermission env s oId "write" "memory" (some mid)).2 =
      .ok false ∧
    (∃ e, (Perm.checkPermission env s oId "write" "memory"
        (some mid)).1.auditLogs = s.auditLogs ++ [e] ∧ e.success = false) := by
  have hif : ¬ (s.auditLogs.length + 1 > 10000) := by omega
  refine ⟨?_, ?_, ?_, ?_, ?_,
    ⟨oId, oName, "permission_check", "memory", mid, false, none⟩, ?_, rfl⟩ <;>
    simp [Perm.checkPermission, Perm.checkPermissionTry, Perm.logAndReturn,
      Perm.checkPermissionResource, Perm.getTeamMembers,
      Perm.getTeamMemories, Perm.checkExplicitPermissions,
      Perm.checkExplicitLoop, Perm.checkMemoryPermissions, Perm.logAudit, Perm.capLogs,
      Perm.checkRolePermissions, hm, hmem, hD, hO, hrules, hM, hcD, hcO,
      hif, List.length_append]

/-- Two pointwise-equal predicates find the same element. -/
theorem find_congr_pred {α : Type} (p q : α → Bool) (l : List α)
    (h : ∀ a, p a = q a) : l.find? p = l.find? q := by
  induction l with
  | nil => rfl
  | cons a t ih => rw [List.find?_cons, List.find?_cons, h a, ih]

/-- Updating the success score of `mid` commutes with looking `mid` up. -/
theorem find_map_update_score (l : List TeamStore.TeamMemoryRow)
    (mid : String) (sc : Rat) :
    (l.map (fun m =>
      if m.id == mid then { m with successScore := sc } else m)).find?
        (fun m => m.id == mid) =
      (l.find? (fun m => m.id == mid)).map
        (fun m => { m with successScore := sc }) := by
  have hpt : ∀ m : TeamStore.TeamMemoryRow,
      ((fun m : TeamStore.TeamMemoryRow => m.id == mid) ∘
        (fun m : TeamStore.TeamMemoryRow =>
          if m.id == mid then { m with successScore := sc } else m)) m =
      (fun m : TeamStore.TeamMemoryRow => m.id == mid) m := by
    intro m
    by_cases h : (m.id == mid) = true
    · rw [Function.comp_apply, if_pos h]
    · rw [Function.comp_apply, if_neg h]
  rw [List.find?_map, find_congr_pred _ _ l hpt]
  cases hf : List.find? (fun m => m.id == mid) l with
  | none => rfl
  | some m =>
    have hm := List.find?_some hf
    simp only [Option.map]
    rw [if_pos hm]

/-- When the memory lookup succeeds, `checkMemoryPermissions` always answers
with a boolean (the visibility decision), never an error. -/
theorem checkMemoryPermissions_ok {env : Perm.PermEnv} {s : Perm.PermState}
    {mems : List Perm.TeamMemory}
    (h : env.memoriesAt s.memoriesCalls = .ok mems) (uid act mid : String) :
    Perm.checkMemoryPermissions env s uid act mid =
      ({ s with memoriesCalls := s.memoriesCalls + 1 },
       .ok (match mems.find? (fun m => m.id == mid) with
            | none => false
            | some memory =>
              if memory.createdBy == uid then true
              else if memory.visibility == "private" then false
              else if memory.visibility == "team_only" then true
              else if memory.visibility == "public" then true
              else false)) := by
  unfold Perm.checkMemoryPermissions Perm.getTeamMemories
  rw [h]
  dsimp only
  cases hf : mems.find? (fun m => m.id == mid) with
  | none => rfl
  | some memory =>
    dsimp only
    split_ifs <;> rfl

/-- C2 witness: the scenario instantiated with a concrete two-member team. -/
theorem c2_witness :
    (Perm.checkPermission
      ⟨fun _ => .ok [⟨"d1", "Dev", "developer"⟩, ⟨"o1", "Obs", "observer"⟩],
       fun _ => .ok [⟨"m1", "u9", "team_only", "decision"⟩], 0⟩
      ⟨[], [], [], 0, 0, 0⟩ "d1" "write" "memory" (some "m1")).2 = .ok true ∧
    (Perm.checkPermission
      ⟨fun _ => .ok [⟨"d1", "Dev", "developer"⟩, ⟨"o1", "Obs", "observer"⟩],
       fun _ => .ok [⟨"m1", "u9", "team_only", "decision"⟩], 0⟩
      ⟨[], [], [], 0, 0, 0⟩ "d1" "delete" "memory" (some "m1")).2 =
      .ok false ∧
    (Perm.checkPermission
      ⟨fun _ => .ok [⟨"d1", "Dev", "developer"⟩, ⟨"o1", "Obs", "observer"⟩],
       fun _ => .ok [⟨"m1", "u9", "team_only", "decision"⟩], 0⟩
      ⟨[], [], [], 0, 0, 0⟩ "o1" "vote" "memory" (some "m1")).2 = .ok true ∧
    (Perm.checkPermission
      ⟨fun _ => .ok [⟨"d1", "Dev", "developer"⟩, ⟨"o1", "Obs", "observer"⟩],
       fun _ => .ok [⟨"m1", "u9", "team_only", "decision"⟩], 0⟩
      ⟨[], [], [], 0, 0, 0⟩ "o1" "comment" "memory" (some "m1")).2 =
      .ok true ∧
    (Perm.checkPermission
      ⟨fun _ => .ok [⟨"d1", "Dev", "developer"⟩, ⟨"o1", "Obs", "observer"⟩],
       fun _ => .ok [⟨"m1", "u9", "team_only", "decision"⟩], 0⟩
      ⟨[], [], [], 0, 0, 0⟩ "o1" "write" "memory" (some "m1")).2 =
      .ok false ∧
    (∃ e, (Perm.checkPermission
        ⟨fun _ => .ok [⟨"d1", "Dev", "developer"⟩, ⟨"o1", "Obs", "observer"⟩],
         fun _ => .ok [⟨"m1", "u9", "team_only", "decision"⟩], 0⟩
        ⟨[], [], [], 0, 0, 0⟩ "o1" "write" "memory"
        (some "m1")).1.auditLogs = [] ++ [e] ∧ e.success = false) :=
  c2_role_scenario
    ⟨fun _ => .ok [⟨"d1", "Dev", "developer"⟩, ⟨"o1", "Obs", "observer"⟩],
     fun _ => .ok [⟨"m1", "u9", "team_only", "decision"⟩], 0⟩
    ⟨[], [], [], 0, 0, 0⟩
    [⟨"d1", "Dev", "developer"⟩, ⟨"o1", "Obs", "observer"⟩]
    [⟨"m1", "u9", "team_only", "decision"⟩]
    "d1" "Dev" "o1" "Obs" "m1" "u9" "decision"
    rfl rfl rfl rfl rfl rfl rfl rfl (by decide)

/-- C3: after `voteOnMemory`, the stored success score of the voted memory
equals `upvotes / (upvotes + downvotes)` over the recorded votes; three
upvotes and one downvote by distinct members read back as `0.75`.  A memory
on which no vote has ever been cast reads back the schema default `0.0`
(not `0.5`, which only arises when the recomputation runs with zero votes
present). -/
theorem c3_success_score :
    (∀ (db : TeamStore.TeamDB) (mid member v : String)
      (m0 : TeamStore.TeamMemoryRow),
      v = "upvote" ∨ v = "downvote" →
      db.teamMemories.find? (fun m => m.id == mid) = some m0 →
      0 < TeamStore.upvoteCount (TeamStore.voteOnMemory db mid member v) mid +
        TeamStore.downvoteCount (TeamStore.voteOnMemory db mid member v) mid ∧
      ((TeamStore.voteOnMemory db mid member v).teamMemories.find?
          (fun m => m.id == mid)).map (fun m => m.successScore) =
        some ((TeamStore.upvoteCount (TeamStore.voteOnMemory db mid member v)
            mid : Rat) /
          ((TeamStore.upvoteCount (TeamStore.voteOnMemory db mid member v) mid
            + TeamStore.downvoteCount (TeamStore.voteOnMemory db mid member v)
              mid : Nat) : Rat))) ∧
    (TeamStore.getTeamMemories
        (TeamStore.voteOnMemory
          (TeamStore.voteOnMemory
            (TeamStore.voteOnMemory
              (TeamStore.voteOnMemory
                (TeamStore.createTeamMemory ⟨"t1", [], [], 0, 0⟩ "decision"
                  "T" "C" "u1" "team_only").1
                "uuid-0" "a" "upvote")
              "uuid-0" "b" "upvote")
            "uuid-0" "c" "upvote")
          "uuid-0" "d" "downvote")).map (fun m => m.successScore) = [3/4] ∧
    (TeamStore.getTeamMemories
        (TeamStore.createTeamMemory ⟨"t1", [], [], 0, 0⟩ "decision" "T" "C"
          "u1" "team_only").1).map (fun m => m.successScore) = [0] := by
  refine ⟨?_, rfl, rfl⟩
  intro db mid member v m0 hv hfind
  have hnew : (⟨"uuid-" ++ toString db.uuidCount, mid, member, v⟩ :
      TeamStore.VoteRow) ∈ (TeamStore.insertVote db mid member v).votes := by
    simp [TeamStore.insertVote]
  have hmem : (⟨"uuid-" ++ toString db.uuidCount, mid, member, v⟩ :
      TeamStore.VoteRow) ∈
      TeamStore.memoryVotes (TeamStore.insertVote db mid member v) mid :=
    List.mem_filter.mpr ⟨hnew, by simp⟩
  have hpos : 0 <
      TeamStore.upvoteCount (TeamStore.insertVote db mid member v) mid +
      TeamStore.downvoteCount (TeamStore.insertVote db mid member v) mid := by
    rcases hv with hv | hv
    · have hup : (⟨"uuid-" ++ toString db.uuidCount, mid, member, v⟩ :
          TeamStore.VoteRow) ∈
          (TeamStore.memoryVotes (TeamStore.insertVote db mid member v)
            mid).filter (fun r => r.vote == "upvote") :=
        List.mem_filter.mpr ⟨hmem, by simp [hv]⟩
      have := List.length_pos_of_mem hup
      unfold TeamStore.upvoteCount
      omega
    · have hdn : (⟨"uuid-" ++ toString db.uuidCount, mid, member, v⟩ :
          TeamStore.VoteRow) ∈
          (TeamStore.memoryVotes (TeamStore.insertVote db mid member v)
            mid).filter (fun r => r.vote == "downvote") :=
        List.mem_filter.mpr ⟨hmem, by simp [hv]⟩
      have := List.length_pos_of_mem hdn
      unfold TeamStore.downvoteCount
      omega
  refine ⟨hpos, ?_⟩
  show ((TeamStore.updateMemorySuccessScore
      (TeamStore.insertVote db mid member v) mid).teamMemories.find?
        (fun m => m.id == mid)).map (fun m => m.successScore) = _
  unfold TeamStore.updateMemorySuccessScore
  rw [find_map_update_score]
  rw [show (TeamStore.insertVote db mid member v).teamMemories =
    db.teamMemories from rfl]
  rw [hfind]
  show some (if 0 <
      TeamStore.upvoteCount (TeamStore.insertVote db mid member v) mid +
      TeamStore.downvoteCount (TeamStore.insertVote db mid member v) mid
    then ((TeamStore.upvoteCount (TeamStore.insertVote db mid member v) mid :
        Rat) /
      ((TeamStore.upvoteCount (TeamStore.insertVote db mid member v) mid +
        TeamStore.downvoteCount (TeamStore.insertVote db mid member v) mid :
          Nat) : Rat))
    else 1/2) = _
  rw [if_pos hpos]
  exact rfl

/-- C3 witness: one upvote on a freshly stored memory. -/
theorem c3_witness :
    0 < TeamStore.upvoteCount
      (TeamStore.voteOnMemory
        ⟨"t1", [⟨"m1", "t1", "decision", "T", "C", "u1", 0, "team_only", 0, 0⟩],
          [], 1, 1⟩ "m1" "u2" "upvote") "m1" +
      TeamStore.downvoteCount
      (TeamStore.voteOnMemory
        ⟨"t1", [⟨"m1", "t1", "decision", "T", "C", "u1", 0, "team_only", 0, 0⟩],
          [], 1, 1⟩ "m1" "u2" "upvote") "m1" ∧
    ((TeamStore.voteOnMemory
        ⟨"t1", [⟨"m1", "t1", "decision", "T", "C", "u1", 0, "team_only", 0, 0⟩],
          [], 1, 1⟩ "m1" "u2" "upvote").teamMemories.find?
      (fun m => m.id == "m1")).map (fun m => m.successScore) =
      some ((TeamStore.upvoteCount
        (TeamStore.voteOnMemory
          ⟨"t1", [⟨"m1", "t1", "decision", "T", "C", "u1", 0, "team_only", 0, 0⟩],
            [], 1, 1⟩ "m1" "u2" "upvote") "m1" : Rat) /
        ((TeamStore.upvoteCount
          (TeamStore.voteOnMemory
            ⟨"t1", [⟨"m1", "t1", "decision", "T", "C", "u1", 0, "team_only", 0, 0⟩],
              [], 1, 1⟩ "m1" "u2" "upvote") "m1" +
          TeamStore.downvoteCount
          (TeamStore.voteOnMemory
            ⟨"t1", [⟨"m1", "t1", "decision", "T", "C", "u1", 0, "team_only", 0, 0⟩],
              [], 1, 1⟩ "m1" "u2" "upvote") "m1" : Nat) : Rat)) :=
  c3_success_score.1
    ⟨"t1", [⟨"m1", "t1", "decision", "T", "C", "u1", 0, "team_only", 0, 0⟩],
      [], 1, 1⟩ "m1" "u2" "upvote"
    ⟨"m1", "t1", "decision", "T", "C", "u1", 0, "team_only", 0, 0⟩
    (Or.inl rfl) rfl

/-- C3 counterexample: a memory on which zero votes have been cast reads back
success score `0.0` (the schema default), not `0.5` as the claim states. -/
theorem c3_counterexample :
    (TeamStore.getTeamMemories
        (TeamStore.createTeamMemory ⟨"t1", [], [], 0, 0⟩ "decision" "T" "C"
          "u1" "team_only").1).map (fun m => m.successScore) = [0] ∧
    (0 : Rat) ≠ 1/2 := ⟨rfl, by norm_num⟩

/-- C5: approval and denial succeed only from `pending` (both transitions are
terminal); approving a pending request materializes an active explicit rule
carrying the requested permissions, after which `checkPermission` for the
requester on the requested action and resource returns the requested
`granted` flag (`true` when the request asked to grant it); denying creates
no rule, so the same check falls back to role and visibility defaults and is
`false` exactly when those deny it. -/
theorem c5_access_request_lifecycle :
    (∀ (env : Perm.PermEnv) (s : Perm.PermState)
      (rid aid did reason : String) (req : Perm.AccessRequest),
      s.accessRequests.find? (fun r => r.id == rid) = some req →
      req.status ≠ "pending" →
      Perm.approveAccessRequest env s rid aid = (s, .ok false) ∧
      Perm.denyAccessRequest env s rid did reason = (s, .ok false)) ∧
    (∀ (env : Perm.PermEnv) (s : Perm.PermState) (ms : List Perm.TeamMember)
      (rid aid act : String) (req : Perm.AccessRequest)
      (u : Perm.TeamMember),
      env.membersAt = (fun _ => .ok ms) →
      ms.find? (fun m => m.id == req.requesterId) = some u →
      s.permissionRules = [] →
      s.accessRequests.find? (fun r => r.id == rid) = some req →
      req.status = "pending" →
      req.requestedPermissions.find? (fun p => p.action == act) =
        some ⟨act, true⟩ →
      (Perm.approveAccessRequest env s rid aid).2 = .ok true ∧
      (Perm.checkPermission env (Perm.approveAccessRequest env s rid aid).1
        req.requesterId act req.resourceType (some req.resourceId)).2 =
        .ok true) ∧
    (∀ (env : Perm.PermEnv) (s : Perm.PermState) (ms : List Perm.TeamMember)
      (mems : List Perm.TeamMemory) (rid did reason act : String)
      (req : Perm.AccessRequest) (u : Perm.TeamMember),
      env.membersAt = (fun _ => .ok ms) →
      env.memoriesAt = (fun _ => .ok mems) →
      ms.find? (fun m => m.id == req.requesterId) = some u →
      s.permissionRules = [] →
      s.accessRequests.find? (fun r => r.id == rid) = some req →
      req.status = "pending" →
      Perm.checkRolePermissions u.role act = false →
      (Perm.denyAccessRequest env s rid did reason).2 = .ok true ∧
      (Perm.denyAccessRequest env s rid did reason).1.permissionRules = [] ∧
      (Perm.checkPermission env (Perm.denyAccessRequest env s rid did
          reason).1 req.requesterId act req.resourceType
        (some req.resourceId)).2 = .ok false) := by
  refine ⟨?_, ?_, ?_⟩
  · intro env s rid aid did reason req hfind hstatus
    constructor <;>
      simp [Perm.approveAccessRequest, Perm.denyAccessRequest, hfind, hstatus]
  · intro env s ms rid aid act req u hm hu hrules hfind hstatus hperm
    simp [Perm.approveAccessRequest, Perm.checkPermission,
      Perm.checkPermissionTry, Perm.logAndReturn,
      Perm.checkPermissionResource, Perm.getTeamMembers, Perm.logAudit, Perm.capLogs,
      Perm.createPermissionRule, Perm.checkExplicitPermissions,
      Perm.checkExplicitLoop, hm, hu, hrules, hfind, hstatus, hperm]
  · intro env s ms mems rid did reason act req u hm hmem hu hrules hfind
      hstatus hrole
    have hden : (Perm.denyAccessRequest env s rid did reason).1.accessRequests
        = s.accessRequests.map (fun r =>
            if r.id == rid then
              { r with status := "denied", denyReason := some reason }
            else r) := by
      simp [Perm.denyAccessRequest, Perm.getTeamMembers, Perm.logAudit, Perm.capLogs, hm,
        hfind, hstatus]
    refine ⟨?_, ?_, ?_⟩
    · simp [Perm.denyAccessRequest, Perm.getTeamMembers, Perm.logAudit, Perm.capLogs, hm,
        hfind, hstatus]
    · simp [Perm.denyAccessRequest, Perm.getTeamMembers, Perm.logAudit, Perm.capLogs, hm,
        hfind, hstatus, hrules]
    · cases hb : (req.resourceType == "memory") with
      | true =>
        simp [Perm.denyAccessRequest, Perm.checkPermission,
          Perm.checkPermissionTry, Perm.logAndReturn,
      Perm.checkPermissionResource, Perm.getTeamMembers, Perm.logAudit, Perm.capLogs,
          Perm.checkExplicitPermissions, Perm.checkExplicitLoop,
          checkMemoryPermissions_ok, hm, hmem, hu, hrules, hfind, hstatus,
          hb, hrole]
      | false =>
        simp [Perm.denyAccessRequest, Perm.checkPermission,
          Perm.checkPermissionTry, Perm.logAndReturn,
      Perm.checkPermissionResource, Perm.getTeamMembers, Perm.logAudit, Perm.capLogs,
          Perm.checkExplicitPermissions, Perm.checkExplicitLoop,
          hm, hmem, hu, hrules, hfind, hstatus, hb, hrole]

/-- A successful audit lookup makes `logAndReturn` append one entry and
return its value. -/
theorem logAndReturn_ok {env : Perm.PermEnv} {s : Perm.PermState}
    {ms : List Perm.TeamMember}
    (h : env.membersAt s.membersCalls = .ok ms)
    (uid rt ridStr : String) (v : Bool) :
    Perm.logAndReturn env s uid rt ridStr v =
      ({ s with
          membersCalls := s.membersCalls + 1
          auditLogs := Perm.capLogs (s.auditLogs ++
            [({ userId := uid
                userName := (((ms.find? (fun m => m.id == uid)).map
                  (fun u => u.name)).getD "Unknown")
                action := "permission_check", resourceType := rt
                resourceId := ridStr, success := v
                errorMessage := none } : Perm.AuditLogEntry)]) }, .ok v) := by
  unfold Perm.logAndReturn
  rw [logAudit_ok h]

/-- When every `getTeamMembers` call succeeds, the role-and-resource tail of
`checkPermission` either answers with one appended audit entry or propagates
a memory-lookup error with the log untouched. -/
theorem checkPermissionResource_logs (env : Perm.PermEnv)
    (ms : List Perm.TeamMember) (s : Perm.PermState)
    (user : Perm.TeamMember) (uid act rt : String) (rid : Option String)
    (hm : env.membersAt = fun _ => .ok ms) :
    (∃ e b, (Perm.checkPermissionResource env s user uid act rt rid).2 =
        .ok b ∧
      (Perm.checkPermissionResource env s user uid act rt rid).1.auditLogs =
        Perm.capLogs (s.auditLogs ++ [e])) ∨
    (∃ msg, (Perm.checkPermissionResource env s user uid act rt rid).2 =
        .error msg ∧
      (Perm.checkPermissionResource env s user uid act rt rid).1.auditLogs =
        s.auditLogs) := by
  have hms : env.membersAt s.membersCalls = Except.ok ms := by rw [hm]
  unfold Perm.checkPermissionResource
  cases rid with
  | none =>
    dsimp only
    rw [logAndReturn_ok hms]
    exact Or.inl ⟨_, _, rfl, rfl⟩
  | some ridv =>
    dsimp only
    split
    · rcases hmm2 : Perm.checkMemoryPermissions env s uid act ridv
        with ⟨s3, rm⟩
      have hst : s3 = { s with memoriesCalls := s.memoriesCalls + 1 } := by
        have h := checkMemoryPermissions_state env s uid act ridv
        rw [hmm2] at h
        exact h
      dsimp only
      cases rm with
      | error e =>
        dsimp only
        exact Or.inr ⟨e, rfl, by rw [hst]⟩
      | ok memP =>
        dsimp only
        rw [hst]
        have hms3 : env.membersAt
            ({ s with memoriesCalls := s.memoriesCalls + 1 } :
              Perm.PermState).membersCalls = Except.ok ms := by rw [hm]
        rw [logAndReturn_ok hms3]
        exact Or.inl ⟨_, _, rfl, rfl⟩
    · rw [logAndReturn_ok hms]
      exact Or.inl ⟨_, _, rfl, rfl⟩

/-- When every `getTeamMembers` call succeeds, the `try` body of
`checkPermission` either returns a boolean having appended exactly one audit
entry, or propagates an error having appended none. -/
theorem checkPermissionTry_logs (env : Perm.PermEnv)
    (ms : List Perm.TeamMember) (s : Perm.PermState) (uid act rt : String)
    (rid : Option String) (hm : env.membersAt = fun _ => .ok ms) :
    (∃ e b, (Perm.checkPermissionTry env s uid act rt rid).2 = .ok b ∧
      (Perm.checkPermissionTry env s uid act rt rid).1.auditLogs =
        Perm.capLogs (s.auditLogs ++ [e])) ∨
    (∃ msg, (Perm.checkPermissionTry env s uid act rt rid).2 = .error msg ∧
      (Perm.checkPermissionTry env s uid act rt rid).1.auditLogs =
        s.auditLogs) := by
  unfold Perm.checkPermissionTry Perm.getTeamMembers
  rw [hm]
  dsimp only
  cases hfu : ms.find? (fun m => m.id == uid) with
  | none =>
    have hms1 : env.membersAt
        ({ s with membersCalls := s.membersCalls + 1 } :
          Perm.PermState).membersCalls = Except.ok ms := by rw [hm]
    rw [logAudit_ok hms1]
    exact Or.inl ⟨_, false, rfl, rfl⟩
  | some user =>
    dsimp only
    rcases hex : Perm.checkExplicitPermissions env
      { s with membersCalls := s.membersCalls + 1 } uid act rt rid
      with ⟨s2, re⟩
    have hlog2 : s2.auditLogs = s.auditLogs := by
      have h := checkExplicitPermissions_auditLogs env
        { s with membersCalls := s.membersCalls + 1 } uid act rt rid
      rw [hex] at h
      exact h
    dsimp only
    cases re with
    | error e =>
      exact Or.inr ⟨e, rfl, hlog2⟩
    | ok op =>
      cases op with
      | some p =>
        have hms2 : env.membersAt s2.membersCalls = Except.ok ms := by
          rw [hm]
        dsimp only
        rw [logAndReturn_ok hms2]
        exact Or.inl ⟨_, p, rfl, by dsimp only; rw [hlog2]⟩
      | none =>
        rcases checkPermissionResource_logs env ms s2 user uid act rt rid hm
          with ⟨e, b, hok, hlogs⟩ | ⟨msg, herr, hlogs⟩
        · exact Or.inl ⟨e, b, hok, by rw [hlogs, hlog2]⟩
        · exact Or.inr ⟨msg, herr, by rw [hlogs, hlog2]⟩

/-- C9: the audit log is capped at the 10,000 most recent entries (`capLogs`
drops exactly the oldest); every successful `logAudit` appends one entry and
caps; the ≤10,000 bound is preserved by every append; and — provided the
audit logger's own member lookup succeeds on every call — every
`checkPermission`, whatever its outcome, appends exactly one entry.  (When
the logger's lookup itself fails, the check propagates the error and appends
nothing: see the counterexample.) -/
theorem c9_audit_log_invariant :
    (∀ l : List Perm.AuditLogEntry,
      Perm.capLogs l = l.drop (l.length - 10000) ∧
      (l.length ≤ 10001 → (Perm.capLogs l).length ≤ 10000)) ∧
    (∀ (env : Perm.PermEnv) (s : Perm.PermState) (ms : List Perm.TeamMember)
      (u a rt rid : String) (suc : Bool) (err : Option String),
      env.membersAt s.membersCalls = .ok ms →
      ∃ e : Perm.AuditLogEntry, e.success = suc ∧
        (Perm.logAudit env s u a rt rid suc err).1.auditLogs =
          Perm.capLogs (s.auditLogs ++ [e])) ∧
    (∀ (env : Perm.PermEnv) (s : Perm.PermState) (u a rt rid : String)
      (suc : Bool) (err : Option String),
      s.auditLogs.length ≤ 10000 →
      (Perm.logAudit env s u a rt rid suc err).1.auditLogs.length ≤ 10000) ∧
    (∀ (env : Perm.PermEnv) (ms : List Perm.TeamMember) (s : Perm.PermState)
      (uid act rt : String) (rid : Option String),
      env.membersAt = (fun _ => .ok ms) →
      ∃ e, (Perm.checkPermission env s uid act rt rid).1.auditLogs =
        Perm.capLogs (s.auditLogs ++ [e])) := by
  refine ⟨?_, ?_, ?_, ?_⟩
  · intro l
    exact ⟨capLogs_eq_drop l, fun h => capLogs_length_le h⟩
  · intro env s ms u a rt rid suc err h
    exact ⟨⟨u, (((ms.find? (fun m => m.id == u)).map
      (fun x => x.name)).getD "Unknown"), a, rt, rid, suc, err⟩, rfl,
      by rw [logAudit_ok h]⟩
  · intro env s u a rt rid suc err hlen
    unfold Perm.logAudit Perm.getTeamMembers
    cases env.membersAt s.membersCalls with
    | error e => exact hlen
    | ok ms =>
      dsimp only
      exact capLogs_length_le
        (by simp only [List.length_append, List.length_singleton]; omega)
  · intro env ms s uid act rt rid hm
    unfold Perm.checkPermission
    rcases htry : Perm.checkPermissionTry env s uid act rt rid with ⟨s1, r⟩
    rcases checkPermissionTry_logs env ms s uid act rt rid hm
      with ⟨e, b, hok, hlogs⟩ | ⟨msg, herr, hlogs⟩
    · rw [htry] at hok hlogs
      dsimp only at hok hlogs
      subst hok
      exact ⟨e, hlogs⟩
    · rw [htry] at herr hlogs
      dsimp only at herr hlogs
      subst herr
      dsimp only
      have hms1 : env.membersAt s1.membersCalls = Except.ok ms := by rw [hm]
      rw [logAudit_ok hms1]
      exact ⟨_, by dsimp only; rw [hlogs]⟩

/-- C9 witness: a permission check from an empty state appends one capped
entry. -/
theorem c9_witness :
    ∃ e, (Perm.checkPermission ⟨fun _ => .ok [], fun _ => .ok [], 0⟩
      ⟨[], [], [], 0, 0, 0⟩ "u1" "read" "doc" none).1.auditLogs =
      Perm.capLogs ([] ++ [e]) :=
  c9_audit_log_invariant.2.2.2 ⟨fun _ => .ok [], fun _ => .ok [], 0⟩ []
    ⟨[], [], [], 0, 0, 0⟩ "u1" "read" "doc" none rfl

/-- C9 counterexample: when the member lookup fails persistently, the check
both fails to append any audit entry and propagates the error — refuting
"every permission check (including error paths) appends exactly one
entry". -/
theorem c9_counterexample :
    (Perm.checkPermission ⟨fun _ => .error "db down", fun _ => .ok [], 0⟩
      ⟨[], [], [], 0, 0, 0⟩ "u1" "read" "memory"
      (some "m1")).1.auditLogs = [] ∧
    (Perm.checkPermission ⟨fun _ => .error "db down", fun _ => .ok [], 0⟩
      ⟨[], [], [], 0, 0, 0⟩ "u1" "read" "memory"
      (some "m1")).2 = .error "db down" := ⟨rfl, rfl⟩

/-- C10: `checkPermission` catches a failing membership lookup, a failing
memory lookup, and an unknown user, returning `false` and recording an audit
entry carrying the error — provided the audit logger's own membership lookup
succeeds.  (When that lookup also fails, the rejection escapes: see the
counterexample.) -/
theorem c10_error_swallowing :
    (∀ (env : Perm.PermEnv) (s : Perm.PermState) (ms : List Perm.TeamMember)
      (uid act rt e : String) (rid : Option String),
      env.membersAt s.membersCalls = .error e →
      env.membersAt (s.membersCalls + 1) = .ok ms →
      s.auditLogs.length < 10000 →
      (Perm.checkPermission env s uid act rt rid).2 = .ok false ∧
      ∃ en : Perm.AuditLogEntry,
        (Perm.checkPermission env s uid act rt rid).1.auditLogs =
          s.auditLogs ++ [en] ∧
        en.success = false ∧ en.errorMessage = some e) ∧
    (∀ (env : Perm.PermEnv) (s : Perm.PermState) (ms : List Perm.TeamMember)
      (uid act rt : String) (rid : Option String),
      env.membersAt = (fun _ => .ok ms) →
      ms.find? (fun m => m.id == uid) = none →
      s.auditLogs.length < 10000 →
      (Perm.checkPermission env s uid act rt rid).2 = .ok false ∧
      ∃ en : Perm.AuditLogEntry,
        (Perm.checkPermission env s uid act rt rid).1.auditLogs =
          s.auditLogs ++ [en] ∧
        en.success = false ∧ en.errorMessage = some "User not found") ∧
    (∀ (env : Perm.PermEnv) (s : Perm.PermState) (ms : List Perm.TeamMember)
      (uid act mid e : String) (u : Perm.TeamMember),
      env.membersAt = (fun _ => .ok ms) →
      ms.find? (fun m => m.id == uid) = some u →
      s.permissionRules = [] →
      env.memoriesAt s.memoriesCalls = .error e →
      s.auditLogs.length < 10000 →
      (Perm.checkPermission env s uid act "memory" (some mid)).2 =
        .ok false ∧
      ∃ en : Perm.AuditLogEntry,
        (Perm.checkPermission env s uid act "memory"
          (some mid)).1.auditLogs = s.auditLogs ++ [en] ∧
        en.success = false ∧ en.errorMessage = some e) := by
  refine ⟨?_, ?_, ?_⟩
  · intro env s ms uid act rt e rid h1 h2 hlen
    have hif : ¬ (s.auditLogs.length + 1 > 10000) := by omega
    refine ⟨?_, ⟨uid, (((ms.find? (fun m => m.id == uid)).map
        (fun x => x.name)).getD "Unknown"), "permission_check", rt,
        rid.getD "", false, some e⟩, ?_, rfl, rfl⟩ <;>
      simp [Perm.checkPermission, Perm.checkPermissionTry,
        Perm.logAndReturn, Perm.checkPermissionResource,
        Perm.getTeamMembers, Perm.logAudit, Perm.capLogs, h1, h2, hif,
        List.length_append]
  · intro env s ms uid act rt rid hm hfu hlen
    have hif : ¬ (s.auditLogs.length + 1 > 10000) := by omega
    refine ⟨?_, ⟨uid, "Unknown", "permission_check", rt, rid.getD "",
        false, some "User not found"⟩, ?_, rfl, rfl⟩ <;>
      simp [Perm.checkPermission, Perm.checkPermissionTry,
        Perm.logAndReturn, Perm.checkPermissionResource,
        Perm.getTeamMembers, Perm.logAudit, Perm.capLogs, hm, hfu, hif,
        List.length_append]
  · intro env s ms uid act mid e u hm hfu hrules hmem hlen
    have hif : ¬ (s.auditLogs.length + 1 > 10000) := by omega
    refine ⟨?_, ⟨uid, u.name, "permission_check", "memory", mid, false,
        some e⟩, ?_, rfl, rfl⟩ <;>
      simp [Perm.checkPermission, Perm.checkPermissionTry,
        Perm.logAndReturn, Perm.checkPermissionResource,
        Perm.getTeamMembers, Perm.getTeamMemories,
        Perm.checkMemoryPermissions, Perm.checkExplicitPermissions,
        Perm.checkExplicitLoop, Perm.logAudit, Perm.capLogs, hm, hfu,
        hrules, hmem, hif, List.length_append]

/-- C10 witness: a transient membership failure (first call errors, retry
succeeds) is caught and recorded. -/
theorem c10_witness :
    (Perm.checkPermission
      ⟨fun n => if n == 0 then .error "boom" else .ok [], fun _ => .ok [], 0⟩
      ⟨[], [], [], 0, 0, 0⟩ "u9" "write" "memory" (some "mX")).2 =
      .ok false ∧
    ∃ en : Perm.AuditLogEntry,
      (Perm.checkPermission
        ⟨fun n => if n == 0 then .error "boom" else .ok [], fun _ => .ok [],
          0⟩
        ⟨[], [], [], 0, 0, 0⟩ "u9" "write" "memory"
        (some "mX")).1.auditLogs = [] ++ [en] ∧
      en.success = false ∧ en.errorMessage = some "boom" :=
  c10_error_swallowing.1
    ⟨fun n => if n == 0 then .error "boom" else .ok [], fun _ => .ok [], 0⟩
    ⟨[], [], [], 0, 0, 0⟩ [] "u9" "write" "memory" "boom" (some "mX")
    rfl rfl (by decide)

/-- C10 counterexample: a persistent membership failure escapes
`checkPermission` as an error instead of returning `false` — the catch
handler's own `logAudit` re-raises. -/
theorem c10_counterexample :
    (Perm.checkPermission ⟨fun _ => .error "offline", fun _ => .ok [], 0⟩
      ⟨[], [], [], 0, 0, 0⟩ "u2" "write" "memory" (some "m2")).2 =
      .error "offline" := rfl

/-- C5 witness: approving a developer's request for `admin` on a memory makes
the subsequent `checkPermission` for that action return `true`. -/
theorem c5_witness :
    (Perm.approveAccessRequest
      ⟨fun _ => .ok [⟨"d1", "Dev", "developer"⟩], fun _ => .ok [], 0⟩
      ⟨[], [⟨"r1", "d1", "memory", "m1", [⟨"admin", true⟩], "pending", none,
        none⟩], [], 0, 0, 0⟩ "r1" "a1").2 = .ok true ∧
    (Perm.checkPermission
      ⟨fun _ => .ok [⟨"d1", "Dev", "developer"⟩], fun _ => .ok [], 0⟩
      (Perm.approveAccessRequest
        ⟨fun _ => .ok [⟨"d1", "Dev", "developer"⟩], fun _ => .ok [], 0⟩
        ⟨[], [⟨"r1", "d1", "memory", "m1", [⟨"admin", true⟩], "pending", none,
          none⟩], [], 0, 0, 0⟩ "r1" "a1").1
      "d1" "admin" "memory" (some "m1")).2 = .ok true :=
  c5_access_request_lifecycle.2.1
    ⟨fun _ => .ok [⟨"d1", "Dev", "developer"⟩], fun _ => .ok [], 0⟩
    ⟨[], [⟨"r1", "d1", "memory", "m1", [⟨"admin", true⟩], "pending", none,
      none⟩], [], 0, 0, 0⟩
    [⟨"d1", "Dev", "developer"⟩] "r1" "a1" "admin"
    ⟨"r1", "d1", "memory", "m1", [⟨"admin", true⟩], "pending", none, none⟩
    ⟨"d1", "Dev", "developer"⟩ rfl rfl rfl rfl rfl rfl

/-- C5 counterexample: denying a developer's `write` request on a `team_only`
memory does not make the subsequent check `false` — the role default still
grants `write`, so `checkPermission` returns `true` after the denial. -/
theorem c5_counterexample :
    (Perm.denyAccessRequest
      ⟨fun _ => .ok [⟨"d1", "Dev", "developer"⟩],
       fun _ => .ok [⟨"m1", "u9", "team_only", "decision"⟩], 0⟩
      ⟨[], [⟨"r1", "d1", "memory", "m1", [⟨"write", true⟩], "pending", none,
        none⟩], [], 0, 0, 0⟩ "r1" "a1" "no").2 = .ok true ∧
    (Perm.checkPermission
      ⟨fun _ => .ok [⟨"d1", "Dev", "developer"⟩],
       fun _ => .ok [⟨"m1", "u9", "team_only", "decision"⟩], 0⟩
      (Perm.denyAccessRequest
        ⟨fun _ => .ok [⟨"d1", "Dev", "developer"⟩],
         fun _ => .ok [⟨"m1", "u9", "team_only", "decision"⟩], 0⟩
        ⟨[], [⟨"r1", "d1", "memory", "m1", [⟨"write", true⟩], "pending", none,
          none⟩], [], 0, 0, 0⟩ "r1" "a1" "no").1
      "d1" "write" "memory" (some "m1")).2 = .ok true := ⟨rfl, rfl⟩

/-- C6: the claim says `clearAllMemory` is total, idempotent and never
errors.  The very first statement it issues is
`DELETE FROM messages WHERE project_id = ?`, but the `messages` schema has
no `project_id` column, so every call — including on a freshly initialized
empty project — fails with an SQL error and deletes nothing. -/
theorem c6_clearAllMemory_always_errors :
    (∀ st : MemE.DBState,
      MemE.clearAllMemory st = .error "no such column: project_id") ∧
    MemE.clearAllMemory (MemE.initDB "p" "n" "r") =
      .error "no such column: project_id" :=
  ⟨fun _ => rfl, rfl⟩

/-- C8: `recordArchitecturalDecision` performs a single insert and bumps the
project's `last_active`, leaving every other table and project field
unchanged; `trackFileChange` performs a single insert and leaves everything
else — including the project row and its `last_active` — unchanged (the
source has no `updateProjectActivity` call there). -/
theorem c8_single_insert_frame :
    (∀ (st : MemE.DBState) (d : MemE.DecisionInput),
      (MemE.recordArchitecturalDecision st d).db.conversations =
        st.db.conversations ∧
      (MemE.recordArchitecturalDecision st d).db.messages = st.db.messages ∧
      (MemE.recordArchitecturalDecision st d).db.fileChanges =
        st.db.fileChanges ∧
      (MemE.recordArchitecturalDecision st d).db.codePatterns =
        st.db.codePatterns ∧
      (MemE.recordArchitecturalDecision st d).db.userPreferences =
        st.db.userPreferences ∧
      (∃ r : MemE.DecisionRow,
        (MemE.recordArchitecturalDecision st d).db.decisions =
          st.db.decisions ++ [r] ∧
        r.decision = d.decision ∧ r.rationale = d.rationale ∧
        r.projectId = st.db.projectId ∧ r.timestamp = st.clock) ∧
      (MemE.recordArchitecturalDecision st d).db.projects =
        st.db.projects.map (fun p =>
          if p.id == st.db.projectId then { p with lastActive := st.clock + 1 }
          else p)) ∧
    (∀ (st : MemE.DBState) (fp ct : String) (cid : Option String),
      (MemE.trackFileChange st fp ct cid).db.projects = st.db.projects ∧
      (MemE.trackFileChange st fp ct cid).db.conversations =
        st.db.conversations ∧
      (MemE.trackFileChange st fp ct cid).db.messages = st.db.messages ∧
      (MemE.trackFileChange st fp ct cid).db.decisions = st.db.decisions ∧
      (MemE.trackFileChange st fp ct cid).db.codePatterns =
        st.db.codePatterns ∧
      (MemE.trackFileChange st fp ct cid).db.userPreferences =
        st.db.userPreferences ∧
      ∃ r : MemE.FileChangeRow,
        (MemE.trackFileChange st fp ct cid).db.fileChanges =
          st.db.fileChanges ++ [r] ∧
        r.filePath = fp ∧ r.changeType = ct ∧ r.conversationId = cid ∧
        r.projectId = st.db.projectId ∧ r.timestamp = st.clock) :=
  ⟨fun st d => ⟨rfl, rfl, rfl, rfl, rfl, ⟨_, rfl, rfl, rfl, rfl, rfl⟩, rfl⟩,
   fun st fp ct cid =>
    ⟨rfl, rfl, rfl, rfl, rfl, rfl, ⟨_, rfl, rfl, rfl, rfl, rfl, rfl⟩⟩⟩

/-- C8 counterexample: after `trackFileChange` on a freshly initialized
store, the project's `last_active` is still `0` although the statement ran
at clock `1` — the claimed `last_active` bump does not happen. -/
theorem c8_counterexample :
    (MemE.trackFileChange (MemE.initDB "p1" "proj" "r1") "a.ts" "created"
      none).db.projects.map (fun p => p.lastActive) = [0] ∧
    (MemE.trackFileChange (MemE.initDB "p1" "proj" "r1") "a.ts" "created"
      none).clock = 2 ∧
    (MemE.initDB "p1" "proj" "r1").clock = 1 := ⟨rfl, rfl, rfl⟩

/-- Deduplication of a concatenation begins with the deduplication of the
first block: later candidates never displace earlier ones. -/
theorem dedupLoop_append (a b : List MemE.Fragment) :
    ∀ seen, ∃ r, MemE.dedupLoop (a ++ b) seen =
      MemE.dedupLoop a seen ++ r := by
  induction a with
  | nil => intro seen; exact ⟨MemE.dedupLoop b seen, rfl⟩
  | cons f rest ih =>
    intro seen
    simp only [List.cons_append, MemE.dedupLoop]
    by_cases hc : seen.contains (MemE.fragKey f) = true
    · simp only [if_pos hc]
      exact ih seen
    · simp only [if_neg hc]
      obtain ⟨r, hr⟩ := ih (MemE.fragKey f :: seen)
      exact ⟨r, by rw [List.cons_append]; exact congrArg _ hr⟩

/-- C4: `recall` always places the (prompt-independent) fragments of the 20
most recent conversation turns at the front of the candidate list, then
deduplicates by (kind, first 50 characters) and truncates to 15 — so the
result has at most 15 fragments and always starts with the deduplicated
recent turns, but recent turns beyond the 15-cap are cut off rather than
all 20 being included. -/
theorem c4_recall_recent_first_capped :
    ∀ (db : MemE.DB) (msg : String),
      (MemE.recallOp db msg).length ≤ 15 ∧
      ∃ rest, MemE.recallOp db msg =
        (MemE.deduplicateMemories (MemE.recentConvFrags db) ++ rest).take
          15 := by
  intro db msg
  constructor
  · exact List.length_take_le 15 _
  · unfold MemE.recallOp MemE.deduplicateMemories
    dsimp only
    rw [List.append_assoc]
    obtain ⟨r, hr⟩ := dedupLoop_append (MemE.recentConvFrags db)
      ((MemE.extractSearchTerms msg).flatMap (MemE.decFragsForTerm db) ++
        (MemE.extractSearchTerms msg).flatMap (MemE.patFragsForTerm db)) []
    rw [hr]
    exact ⟨r, rfl⟩

/-- C4 counterexample: with 20 distinct recent turns and a prompt matching
nothing, `recall` returns 15 fragments; the turn `user: t5` is among the 20
most recent turns yet absent from the result, refuting the claim that all
20 recent turns are always included. -/
theorem c4_counterexample :
    (MemE.recallOp MemE.recallSampleDB "qqq").length = 15 ∧
    (⟨"conversation", "user: t5"⟩ : MemE.Fragment) ∈
      MemE.recentConvFrags MemE.recallSampleDB ∧
    (⟨"conversation", "user: t5"⟩ : MemE.Fragment) ∉
      MemE.recallOp MemE.recallSampleDB "qqq" := by
  refine ⟨rfl, by decide, by decide⟩

/-- Inserting below all keys keeps the element in front. -/
theorem insAsc_of_le {α : Type} (key : α → Nat) (a : α) :
    ∀ t : List α, (∀ b ∈ t, key a ≤ key b) →
      ListUtil.insAsc key a t = a :: t := by
  intro t h
  cases t with
  | nil => rfl
  | cons b bs =>
    unfold ListUtil.insAsc
    rw [if_pos (h b (List.mem_cons_self b bs))]

/-- A stable ascending sort leaves an already key-sorted list unchanged. -/
theorem sortAscBy_sorted {α : Type} (key : α → Nat) :
    ∀ l : List α, l.Pairwise (fun a b => key a ≤ key b) →
      ListUtil.sortAscBy key l = l := by
  intro l h
  induction l with
  | nil => rfl
  | cons a t ih =>
    rw [List.pairwise_cons] at h
    unfold ListUtil.sortAscBy
    rw [ih h.2]
    exact insAsc_of_le key a t h.1

/-- `insertMessages` in one equation: rows appended as `mkRows`, the clock
advanced by the message count, the uuid counter by the empty-id count. -/
theorem insertMessages_eq (cid : String) :
    ∀ (msgs : List MemE.Message) (st : MemE.DBState),
      MemE.insertMessages st cid msgs =
        { st with
            db := { st.db with
              messages := st.db.messages ++
                MemE.mkRows cid st.clock st.uuidCount msgs }
            clock := st.clock + msgs.length
            uuidCount := st.uuidCount + MemE.countFresh msgs } := by
  intro msgs
  induction msgs with
  | nil =>
    intro st
    simp [MemE.insertMessages, MemE.mkRows, MemE.countFresh]
  | cons m rest ih =>
    intro st
    simp only [MemE.insertMessages, MemE.mkRows, MemE.countFresh]
    rw [ih]
    simp only [MemE.DBState.mk.injEq, MemE.DB.mk.injEq, List.append_assoc,
      List.cons_append, List.nil_append, List.length_cons, true_and,
      and_true, eq_self_iff_true]
    by_cases hid : (m.id == "") = true
    · simp only [if_pos hid]
      omega
    · simp only [if_neg hid]
      omega

/-- Every row produced by `mkRows` carries a timestamp at least the starting
clock. -/
theorem mkRows_ts_ge (cid : String) :
    ∀ (msgs : List MemE.Message) (t u : Nat) (r : MemE.MsgRow),
      r ∈ MemE.mkRows cid t u msgs → t ≤ r.timestamp := by
  intro msgs
  induction msgs with
  | nil => intro t u r hr; exact absurd hr (List.not_mem_nil r)
  | cons m rest ih =>
    intro t u r hr
    rw [MemE.mkRows, List.mem_cons] at hr
    rcases hr with hr | hr
    · rw [hr]
    · exact Nat.le_of_succ_le (ih (t + 1) _ r hr)

/-- The rows produced by `mkRows` are sorted by ascending timestamp. -/
theorem mkRows_pairwise (cid : String) :
    ∀ (msgs : List MemE.Message) (t u : Nat),
      (MemE.mkRows cid t u msgs).Pairwise
        (fun a b => a.timestamp ≤ b.timestamp) := by
  intro msgs
  induction msgs with
  | nil => intro t u; exact List.Pairwise.nil
  | cons m rest ih =>
    intro t u
    rw [MemE.mkRows, List.pairwise_cons]
    exact ⟨fun r hr => Nat.le_of_succ_le (mkRows_ts_ge cid rest (t + 1) _ r
      hr), ih (t + 1) _⟩

/-- Every row produced by `mkRows` belongs to the given conversation. -/
theorem mkRows_conv (cid : String) :
    ∀ (msgs : List MemE.Message) (t u : Nat),
      (MemE.mkRows cid t u msgs).filter
        (fun r => r.conversationId == cid) = MemE.mkRows cid t u msgs := by
  intro msgs
  induction msgs with
  | nil => intro t u; rfl
  | cons m rest ih =>
    intro t u
    rw [MemE.mkRows, List.filter_cons]
    rw [if_pos (by exact beq_self_eq_true cid)]
    rw [ih]

/-- Projecting `mkRows` back to (id, role, content, metadata) recovers the
input messages — ids included, when none was empty. -/
theorem mkRows_proj (cid : String) :
    ∀ (msgs : List MemE.Message) (t u : Nat),
      (∀ m ∈ msgs, m.id ≠ "") →
      (MemE.mkRows cid t u msgs).map
        (fun r => (r.id, r.role, r.content, r.metadata)) =
      msgs.map (fun m => (m.id, m.role, m.content, m.metadata)) := by
  intro msgs
  induction msgs with
  | nil => intro t u _; rfl
  | cons m rest ih =>
    intro t u h
    have hid : (m.id == "") = false := by
      have := h m (List.mem_cons_self m rest)
      simp [this]
    rw [MemE.mkRows, List.map_cons, List.map_cons]
    rw [ih (t + 1) _ (fun x hx => h x (List.mem_cons_of_mem m hx))]
    simp only [if_neg (by simp [hid] : ¬ (m.id == "") = true)]

/-- C7: recording a conversation and reading project memory back yields one
conversation, under the returned conversation id, whose messages agree with
the inputs in id, role, content and metadata, in the same order — but not in
full: the read-back timestamps are the storage-assigned insert times, not the
caller's (see the counterexample). -/
theorem c7_conversation_roundtrip :
    ∀ (pid name root assistant context : String) (msgs : List MemE.Message),
      (∀ m ∈ msgs, m.id ≠ "") →
      ((MemE.getProjectMemory
          (MemE.recordConversation (MemE.initDB pid name root) assistant msgs
            context).1).map (fun pv => pv.conversations.map (fun cv =>
          (cv.id, cv.messages.map
            (fun m => (m.id, m.role, m.content, m.metadata)))))) =
        some [((MemE.recordConversation (MemE.initDB pid name root) assistant
          msgs context).2,
          msgs.map (fun m => (m.id, m.role, m.content, m.metadata)))] := by
  intro pid name root assistant context msgs hids
  simp only [MemE.recordConversation, MemE.initDB]
  rw [insertMessages_eq]
  simp only [MemE.getProjectMemory, MemE.updateProjectActivity]
  simp [ListUtil.sortDescBy, ListUtil.insDesc, mkRows_conv]
  rw [sortAscBy_sorted (fun m : MemE.MsgRow => m.timestamp) _
    (mkRows_pairwise ("uuid-" ++ toString 0) msgs 2 1)]
  simp only [Function.comp_def]
  exact mkRows_proj _ msgs 2 1 hids

/-- C7 witness: a one-message conversation round-trips its id, role, content
and metadata. -/
theorem c7_witness :
    ((MemE.getProjectMemory
        (MemE.recordConversation (MemE.initDB "p" "n" "r") "ai"
          [⟨"m1", "user", "hi", 7, "md"⟩] "ctx").1).map
      (fun pv => pv.conversations.map (fun cv =>
        (cv.id, cv.messages.map
          (fun m => (m.id, m.role, m.content, m.metadata)))))) =
      some [((MemE.recordConversation (MemE.initDB "p" "n" "r") "ai"
        [⟨"m1", "user", "hi", 7, "md"⟩] "ctx").2,
        [⟨"m1", "user", "hi", 7, "md"⟩].map
          (fun m : MemE.Message => (m.id, m.role, m.content, m.metadata)))] :=
  c7_conversation_roundtrip "p" "n" "r" "ai" "ctx"
    [⟨"m1", "user", "hi", 7, "md"⟩] (by decide)

/-- C7 counterexample: the read-back message carries the storage-assigned
timestamp `2`, so the message list does not equal the input messages, whose
message carried timestamp `999`. -/
theorem c7_counterexample :
    ((MemE.getProjectMemory
        (MemE.recordConversation (MemE.initDB "p" "n" "r") "ai"
          [⟨"m1", "user", "hi", 999, "md"⟩] "ctx").1).map
      (fun pv => pv.conversations.map (fun cv => cv.messages))) =
      some [[⟨"m1", "user", "hi", 2, "md"⟩]] ∧
    (⟨"m1", "user", "hi", 2, "md"⟩ : MemE.Message) ≠
      ⟨"m1", "user", "hi", 999, "md"⟩ := ⟨rfl, by decide⟩
